import Mathlib

namespace Napi

/-- Logical network object as used by the provisioning code: uuid,
fabric flag and vnet id (only the fields the allocation core reads). -/
structure Network where
  uuid : String
  fabric : Bool := false
  vnet_id : Nat := 0
deriving DecidableEq, Repr

/-- Network pool object: the provisioning code reads pool.networks,
the ordered list of member network uuids. -/
structure NetworkPool where
  uuid : String := ""
  networks : List String := []
deriving DecidableEq, Repr

/-- IP record object (mod_ip model) as read by the provisioning code:
canonical address (the key), v6 equality form, the owning network object
in ip.params.network, the owner uuid in ip.params.belongs_to_uuid, and
the reserved flag. -/
structure IPObj where
  address : String
  v6address : String
  network : Network
  belongs_to_uuid : Option String := none
  reserved : Bool := false
deriving DecidableEq, Repr

/-- Modelled from the spec: ip.key() is the canonical string form of the
address, the key of the record in its per-network bucket (mod_ip is not
part of the source tree). -/
def IPObj.key (ip : IPObj) : String := ip.address

/-- Modelled from the spec: an IP record is provisionable when it is
not reserved and no owner is set (mod_ip.provisionable is not part of
the source tree; the method takes no requesting context). -/
def IPObj.provisionable (ip : IPObj) : Bool :=
  !ip.reserved && ip.belongs_to_uuid.isNone

/-- Dynamic JS values stored in a validated-parameter bag. -/
inductive Val
  | str (s : String)
  | nat (n : Nat)
  | bool (b : Bool)
  | ipobj (ip : IPObj)
  | net (n : Network)
  | pool (p : NetworkPool)
  | null
deriving DecidableEq, Repr

/-- JS truthiness of a value. -/
def Val.truthy : Val → Bool
  | .str s => s ≠ ""
  | .nat n => n ≠ 0
  | .bool b => b
  | .null => false
  | _ => true

/-- A JS object used as a parameter bag: association list keyed by
property name, first binding wins. -/
abbrev Params := List (String × Val)

/-- Property read: the first binding for the key, none models undefined. -/
def Params.get : Params → String → Option Val
  | [], _ => none
  | (k, v) :: rest, key => if k == key then some v else Params.get rest key

/-- Property write: replace the first binding or append a new one. -/
def Params.set : Params → String → Val → Params
  | [], k, v => [(k, v)]
  | (k', v') :: rest, k, v =>
      if k' == k then (k, v) :: rest else (k', v') :: Params.set rest k v

/-- JS truthiness of a property: present and truthy. -/
def Params.truthy (p : Params) (k : String) : Bool :=
  match p.get k with
  | some v => v.truthy
  | none => false

/-- Numeric read with JS-style default 0 for absent or non-numeric. -/
def Params.natD (p : Params) (k : String) : Nat :=
  match p.get k with
  | some (.nat n) => n
  | _ => 0

/-- String read, none models undefined or a non-string value. -/
def Params.getStr (p : Params) (k : String) : Option String :=
  match p.get k with
  | some (.str s) => some s
  | _ => none

/-- The context object of an EtagConflictError cause:
cause.context.bucket and cause.context.key. -/
structure EtagCtx where
  bucket : String
  key : String
deriving DecidableEq, Repr

/-- A single entry of an InvalidParamsError body, as produced by the
errors module helpers (errors module is not part of the source tree;
shapes modelled from their call sites). -/
inductive ParamErrItem
  | duplicateParam (field : Option String) (message : Option String)
  | invalidParam (field : String) (message : String)
  | usedByParam (field : String) (btype : Option String) (buuid : Option String)
deriving DecidableEq, Repr

/-- An error value as observed by the allocation code: its name, the
stop flag the driver inspects, the EtagConflictError cause found by
VError.findCauseByName (if any) with its context, the network_uuid
carried by SubnetFullError, a message, and invalid-parameter entries. -/
structure NapiError where
  name : String
  stop : Bool := false
  etagCause : Option EtagCtx := none
  network_uuid : Option String := none
  message : Option String := none
  invalidParams : List ParamErrItem := []
deriving DecidableEq, Repr

/-- Name of the single global NIC bucket, as it appears in the source
tree (test helpers read napi_nics); common.BUCKET.name. -/
def NIC_BUCKET_NAME : String := "napi_nics"

/-- Key of a NIC record in the NIC bucket: the MAC number rendered as a
string, as in the source tree test helpers (macNum.toString()). -/
def nicKeyOfMac (m : Nat) : String := toString m

/-- Modelled from the spec: mod_ip.bucketName, a deterministic function
of the network uuid naming the per-network IP bucket (mod_ip is not
part of the source tree).  The none case models a JS call with
undefined, which cannot name any real network bucket. -/
def bucketName : Option String → String
  | some u => "napi_ips_" ++ u
  | none => "napi_ips_undefined"

/-- Modelled from the spec: constants.MAC_RETRIES, the fixed small
integer capping MAC-selection attempts (constants module is not part of
the source tree). -/
def MAC_RETRIES : Nat := 50

/-- Modelled from the spec: constants.POOL_FULL_MSG (content immaterial
to the claims). -/
def POOL_FULL_MSG : String := "all networks in pool are full"

/-- Modelled from the spec: constants.msg.INVALID_PARAMS. -/
def INVALID_PARAMS_MSG : String := "Invalid parameters"

/-- Modelled from the spec: the formatted constants.fmt.IP_EXISTS
message; a JS format of undefined prints the word undefined. -/
def ipExistsMsg (addr : String) (netUuid : Option String) : String :=
  "IP address " ++ addr ++ " already exists on network " ++ netUuid.getD "undefined"

/-- Modelled from the spec: the SubnetFullError raised by
mod_ip.nextIPonNetwork when a full wrap finds no free slot; it carries
the network uuid and the stop flag (mod_ip is not part of the source
tree; fetchNextIP in the source deletes the stop flag of such errors
when dontStop is set, witnessing that they carry it). -/
def subnetFullError (u : String) : NapiError :=
  { name := "SubnetFullError", stop := true, network_uuid := some u }

/-- The stopping invalid-parameters error built by
NetworkPoolProvision.nextNetwork when the member queue is exhausted. -/
def poolFullError (field : String) : NapiError :=
  { name := "InvalidParamsError", stop := true,
    message := some "Invalid parameters",
    invalidParams := [.invalidParam field POOL_FULL_MSG] }

/-- The stopping duplicate-mac error built by macSupplied. -/
def macInUseErr : NapiError :=
  { name := "InvalidParamsError", stop := true,
    message := some INVALID_PARAMS_MSG,
    invalidParams := [.duplicateParam (some "mac") none] }

/-- The stopping internal error built by randomMAC when the attempt
counter passes MAC_RETRIES. -/
def noFreeMacErr : NapiError :=
  { name := "InternalError", stop := true,
    message := some "no more free MAC addresses" }

/-- The assert.equal failure in the NIC-building functions, modelled as
an error value (a thrown AssertionError aborts the request). -/
def assertIpsError : NapiError :=
  { name := "AssertionError", stop := true,
    message := some "opts.ips.length === 1" }

/-- The stopping duplicate-param error built by IPProvision.provision;
field is the provisioner field (undefined when not passed), and the
message formats the address with this.network.uuid. -/
def ipInUseError (field : Option String) (addr : String) (netUuid : Option String) :
    NapiError :=
  { name := "InvalidParamsError", stop := true,
    message := some INVALID_PARAMS_MSG,
    invalidParams := [.duplicateParam field (some (ipExistsMsg addr netUuid))] }

/-- The used-by error built by the update path for a new IP that is not
provisionable. -/
def usedByErr (ip : IPObj) : NapiError :=
  { name := "InvalidParamsError",
    message := some INVALID_PARAMS_MSG,
    invalidParams := [.usedByParam "ip" none ip.belongs_to_uuid] }

/-- NIC object (obj.js model, not part of the source tree): the
parameter bag it was built from, the linked IP and network set by the
NIC-building functions, the fabric member list, and the store etag. -/
structure Nic where
  params : Params
  ip : Option IPObj := none
  network : Option Network := none
  vnetCns : Option (List String) := none
  etag : Val := .null
deriving DecidableEq, Repr

/-- Modelled from the spec: a fabric NIC is one whose network is a
fabric network (Nic.isFabric in obj.js, not part of the source tree). -/
def Nic.isFabric (n : Nic) : Bool :=
  match n.network with
  | some net => net.fabric
  | none => false

/-- The belongs_to_uuid property of the NIC parameter bag, read the way
the delete and update code read nic.params.belongs_to_uuid. -/
def Nic.belongsTo (n : Nic) : Option String :=
  n.params.getStr "belongs_to_uuid"

/-- Modelled from the spec: Nic.serialize returns the record fields of
the NIC (obj.js is not part of the source tree); modelled as the
parameter bag the NIC carries, which includes mac. -/
def Nic.serialize (n : Nic) : Params := n.params

/-- Items in the batch submitted to the versioned store. -/
inductive BatchItem
  | ipPut (ip : IPObj)
  | ipFree (ip : IPObj)
  | ipUnassign (ip : IPObj)
  | nicPut (nic : Nic)
  | nicDel (nic : Nic)
deriving DecidableEq, Repr

/-- Modelled from the spec: Nic.batch emits the conditional put of the
NIC record (obj.js is not part of the source tree; the primary-unset
puts for sibling NICs are owned by the store environment and not
modelled, as no claim concerns them). -/
def Nic.batchItems (n : Nic) : List BatchItem := [.nicPut n]

/-- Modelled from the spec: Nic.delBatch emits the NIC delete item. -/
def Nic.delBatch (n : Nic) : List BatchItem := [.nicDel n]

/-- The three NIC-building functions passed as opts.nicFn. -/
inductive NicFnKind
  | macSupplied
  | randomMAC
  | addUpdatedNic
deriving DecidableEq, Repr

/-- The per-request context (the opts bag threaded through the pipeline)
together with the oracles standing for the store, the network getter,
the fabric-member listing, and the random stream. -/
structure Ctx where
  validated : Params := []
  baseParams : Params := []
  err : Option NapiError := none
  batch : List BatchItem := []
  ips : List IPObj := []
  nic : Option Nic := none
  existingNic : Option Nic := none
  nicFn : NicFnKind := .randomMAC
  macTries : Option Nat := none
  startMac : Option Nat := none
  maxMac : Option Nat := none
  vnetCns : Option (List String) := none
  provisionableIPs : Option (List IPObj) := none
  removeIPs : Option (List IPObj) := none
  macOUI : Nat := 0
  randoms : List Nat := []
  nextIPonNetwork : String → Except NapiError IPObj := fun u => .error (subnetFullError u)
  netGet : String → Except NapiError Network := fun u => .ok { uuid := u }
  vnetLookup : Nat → Except NapiError (List String) := fun _ => .ok []
  commitResults : List (Option NapiError) := []

/-- Provisioner.batchIP: push the selected IP and its batched form into
the arrays of the driver context. -/
def batchIP (ip : IPObj) (ctx : Ctx) : Ctx :=
  { ctx with ips := ctx.ips ++ [ip], batch := ctx.batch ++ [.ipPut ip] }

/-- The value held in a provisioner network slot: either a network
object, or a bare uuid string (what the IPProvision constructor
stores). -/
inductive NetSlot
  | netObj (n : Network)
  | uuidStr (s : String)
deriving DecidableEq, Repr

/-- JS read of slot.uuid: defined on a network object, undefined on a
string. -/
def NetSlot.uuidProp : NetSlot → Option String
  | .netObj n => some n.uuid
  | .uuidStr _ => none

/-- Provisioner.haveEtagFailure: a previous error counts as our etag
failure when it has an EtagConflictError cause whose context names the
bucket of this.network.uuid and the key of this.ip. -/
def haveEtagFailure (selfIp : Option IPObj) (selfNetwork : NetSlot)
    (err : Option NapiError) : Bool :=
  match err with
  | none => false
  | some e =>
    match selfIp with
    | none => false
    | some ip =>
      match e.etagCause with
      | none => false
      | some c => c.bucket == bucketName selfNetwork.uuidProp && c.key == ip.key

/-- Provisioner.fetchNextIP: ask the store for the next IP on the
network; on failure optionally strip the stop flag, on success select
and batch the IP (the returned option is the newly selected IP). -/
def fetchNextIP (network : Network) (ctx : Ctx) (dontStop : Bool) :
    Option IPObj × Ctx × Option NapiError :=
  match ctx.nextIPonNetwork network.uuid with
  | .error e =>
      (none, ctx, some (if dontStop && e.stop then { e with stop := false } else e))
  | .ok ip => (some ip, batchIP ip ctx, none)

/-- IPProvision provisioner state; the constructor stores
ip.params.network.uuid, a bare uuid string, in the network slot, and
the field it was (or was not) given. -/
structure IPProvision where
  ip : IPObj
  network : NetSlot
  field : Option String
deriving DecidableEq, Repr

/-- The IPProvision constructor. -/
def IPProvision.make (ip : IPObj) (field : Option String) : IPProvision :=
  { ip := ip, network := .uuidStr ip.network.uuid, field := field }

/-- IPProvision.provision: stop with a duplicate-param error when the
previous error matches this IP per haveEtagFailure, else re-batch the
same IP. -/
def IPProvision.provision (p : IPProvision) (ctx : Ctx) :
    IPProvision × Ctx × Option NapiError :=
  if haveEtagFailure (some p.ip) p.network ctx.err then
    (p, ctx, some (ipInUseError p.field p.ip.address p.network.uuidProp))
  else
    (p, batchIP p.ip ctx, none)

/-- NetworkProvision provisioner state. -/
structure NetworkProvision where
  ip : Option IPObj
  network : Network
deriving DecidableEq, Repr

/-- Helper for NetworkProvision.provision: fetch a next IP with
dontStop unset and record the selection. -/
def NetworkProvision.fetchHere (p : NetworkProvision) (ctx : Ctx) :
    NetworkProvision × Ctx × Option NapiError :=
  match fetchNextIP p.network ctx false with
  | (some ip, ctx', oe) => ({ p with ip := some ip }, ctx', oe)
  | (none, ctx', oe) => (p, ctx', oe)

/-- NetworkProvision.provision: fetch a fresh IP if none is chosen or
the previous error conflicted on the current one, else re-batch the
current IP. -/
def NetworkProvision.provision (p : NetworkProvision) (ctx : Ctx) :
    NetworkProvision × Ctx × Option NapiError :=
  match p.ip with
  | none => p.fetchHere ctx
  | some ip =>
    if haveEtagFailure (some ip) (.netObj p.network) ctx.err then
      p.fetchHere ctx
    else
      (p, batchIP ip ctx, none)

/-- NetworkPoolProvision provisioner state. -/
structure NetworkPoolProvision where
  ip : Option IPObj
  network : Option Network
  pool : NetworkPool
  field : String
  poolUUIDs : List String
deriving DecidableEq, Repr

/-- The NetworkPoolProvision constructor. -/
def NetworkPoolProvision.make (pool : NetworkPool) (field : String) :
    NetworkPoolProvision :=
  { ip := none, network := none, pool := pool, field := field,
    poolUUIDs := pool.networks }

/-- NetworkPoolProvision.nextNetwork: shift the next member uuid off
the queue (a stopping pool-full error when exhausted), get the network
object, then fetch an IP on it with dontStop set. -/
def NetworkPoolProvision.nextNetwork (p : NetworkPoolProvision) (ctx : Ctx) :
    NetworkPoolProvision × Ctx × Option NapiError :=
  match p.poolUUIDs with
  | [] => (p, ctx, some (poolFullError p.field))
  | u :: rest =>
    let p1 : NetworkPoolProvision := { p with poolUUIDs := rest }
    match ctx.netGet u with
    | .error e => (p1, ctx, some e)
    | .ok net =>
      let p2 : NetworkPoolProvision := { p1 with network := some net }
      match fetchNextIP net ctx true with
      | (some ip, ctx', oe) => ({ p2 with ip := some ip }, ctx', oe)
      | (none, ctx', oe) => (p2, ctx', oe)

/-- NetworkPoolProvision.haveNetFailure: the previous error is a
SubnetFullError on the currently selected network. -/
def NetworkPoolProvision.haveNetFailure (p : NetworkPoolProvision)
    (err : Option NapiError) : Bool :=
  match err with
  | none => false
  | some e =>
    e.name == "SubnetFullError" &&
      e.network_uuid == (match p.network with
                         | some n => some n.uuid
                         | none => none)

/-- Helper for NetworkPoolProvision.provision: fetch a next IP on the
selected network with dontStop set and record the selection. -/
def NetworkPoolProvision.fetchHere (p : NetworkPoolProvision) (net : Network)
    (ctx : Ctx) : NetworkPoolProvision × Ctx × Option NapiError :=
  match fetchNextIP net ctx true with
  | (some ip, ctx', oe) => ({ p with ip := some ip }, ctx', oe)
  | (none, ctx', oe) => (p, ctx', oe)

/-- NetworkPoolProvision.provision: advance to the next pool member if
no network is selected or the selected one reported subnet-full; else
fetch a fresh IP if none is chosen or the previous error conflicted on
it; else re-batch the current IP. -/
def NetworkPoolProvision.provision (p : NetworkPoolProvision) (ctx : Ctx) :
    NetworkPoolProvision × Ctx × Option NapiError :=
  match p.network with
  | none => p.nextNetwork ctx
  | some net =>
    if p.haveNetFailure ctx.err then
      p.nextNetwork ctx
    else
      match p.ip with
      | none => p.fetchHere net ctx
      | some ip =>
        if haveEtagFailure (some ip) (.netObj net) ctx.err then
          p.fetchHere net ctx
        else
          (p, batchIP ip ctx, none)

/-- The three provisioner variants. -/
inductive Prov
  | ipP (p : IPProvision)
  | netP (p : NetworkProvision)
  | poolP (p : NetworkPoolProvision)
deriving DecidableEq, Repr

/-- Dispatch provision on a provisioner variant. -/
def Prov.provision : Prov → Ctx → Prov × Ctx × Option NapiError
  | .ipP p, ctx =>
      match p.provision ctx with
      | (p', ctx', oe) => (.ipP p', ctx', oe)
  | .netP p, ctx =>
      match p.provision ctx with
      | (p', ctx', oe) => (.netP p', ctx', oe)
  | .poolP p, ctx =>
      match p.provision ctx with
      | (p', ctx', oe) => (.poolP p', ctx', oe)

/-- nicEtagFail: the previous error has an EtagConflictError cause in
the NIC bucket (only the bucket is compared, never the key). -/
def nicEtagFail (err : Option NapiError) : Bool :=
  match err with
  | none => false
  | some e =>
    match e.etagCause with
    | none => false
    | some c => c.bucket == NIC_BUCKET_NAME

/-- Build a NIC from a parameter bag (new Nic(params); obj.js is not
part of the source tree, so the constructor is modelled as carrying the
bag). -/
def buildNic (p : Params) : Nic := { params := p }

/-- The ips-linking tail shared by the NIC-building functions: when
opts.ips is non-empty, assert it has exactly one entry and link it as
the NIC IP and network. -/
def linkNicIPs (nic : Nic) (ips : List IPObj) : Except NapiError Nic :=
  match ips with
  | [] => .ok nic
  | [ip] => .ok { nic with ip := some ip, network := some ip.network }
  | _ => .error assertIpsError

/-- macSupplied: stop with a duplicate-mac error when a NIC was already
built and the previous error is an etag conflict in the NIC bucket;
otherwise build the NIC from the validated parameters, link the chosen
IP, and copy the fabric member list onto fabric NICs. -/
def macSupplied (ctx : Ctx) : Ctx × Option NapiError :=
  if ctx.nic.isSome && nicEtagFail ctx.err then
    (ctx, some macInUseErr)
  else
    let nic0 := buildNic ctx.validated
    match linkNicIPs nic0 ctx.ips with
    | .error e => ({ ctx with nic := some nic0 }, some e)
    | .ok nic1 =>
      let nic2 := if nic1.isFabric && ctx.vnetCns.isSome then
                    { nic1 with vnetCns := ctx.vnetCns }
                  else nic1
      ({ ctx with nic := some nic2 }, none)

/-- Modelled from the spec: util_mac.maxOUInum, the highest MAC number
under the configured OUI (util_mac is not part of the source tree). -/
def maxOUInum (oui : Nat) : Nat := oui * 16777216 + 16777215

/-- The lowest MAC number under the configured OUI. -/
def minOUInum (oui : Nat) : Nat := oui * 16777216

/-- Modelled from the spec: util_mac.randomNum draws a uniformly random
24-bit suffix under the OUI; the randomness is an explicit draw r from
the random stream of the context. -/
def randomNum (oui : Nat) (r : Nat) : Nat := oui * 16777216 + r % 16777216

/-- Take one draw off the random stream. -/
def drawRandom (ctx : Ctx) : Nat × Ctx :=
  (ctx.randoms.headD 0, { ctx with randoms := ctx.randoms.tail })

/-- The build-and-link tail shared by the NIC-building functions: set
opts.nic from the given candidate and link the chosen IP. -/
def finishNicFn (ctx : Ctx) (nic0 : Nic) : Ctx × Option NapiError :=
  match linkNicIPs nic0 ctx.ips with
  | .error e => ({ ctx with nic := some nic0 }, some e)
  | .ok nic1 => ({ ctx with nic := some nic1 }, none)

/-- First statement of randomMAC: initialize opts.macTries when the
property is absent. -/
def macTriesInit (ctx0 : Ctx) : Ctx :=
  if ctx0.macTries.isSome then ctx0 else { ctx0 with macTries := some 0 }

/-- randomMAC maxMac caching: set opts.maxMac to the OUI maximum when
it is still unset (falsy). -/
def maxMacInit (ctx : Ctx) : Ctx :=
  if ctx.maxMac.getD 0 = 0 then
    { ctx with maxMac := some (maxOUInum ctx.macOUI) }
  else ctx

/-- randomMAC candidate selection: draw a fresh random MAC and record
it as startMac when none is set, else increment the previous one. -/
def pickMac (ctx : Ctx) : Ctx :=
  if !ctx.validated.truthy "mac" then
    match drawRandom ctx with
    | (r, ctxr) =>
      { ctxr with validated := ctxr.validated.set "mac" (.nat (randomNum ctxr.macOUI r)),
                  startMac := some (randomNum ctxr.macOUI r) }
  else
    { ctx with validated :=
        ctx.validated.set "mac" (.nat (ctx.validated.natD "mac" + 1)) }

/-- randomMAC wrap handling: re-randomize when the candidate passed the
cached OUI maximum. -/
def wrapMac (ctx : Ctx) : Ctx :=
  if ctx.validated.natD "mac" > ctx.maxMac.getD 0 then
    match drawRandom ctx with
    | (r, ctxr) =>
      { ctxr with validated :=
          ctxr.validated.set "mac" (.nat (randomNum ctxr.macOUI r)) }
  else ctx

/-- Body of randomMAC after the macTries initialization: reuse the
current MAC when one is set and the previous error was not a NIC-bucket
conflict; otherwise stop with a no-free-MAC error once macTries passes
MAC_RETRIES, else count the attempt, draw a fresh random MAC (first
attempt) or increment the previous one, re-randomizing when the result
passes the OUI maximum, and build the NIC. -/
def randomMACBody (ctx : Ctx) : Ctx × Option NapiError :=
  if ctx.validated.truthy "mac" && !nicEtagFail ctx.err then
    finishNicFn ctx (buildNic ctx.validated)
  else if ctx.macTries.getD 0 > MAC_RETRIES then
    (ctx, some noFreeMacErr)
  else
    let ctx4 := wrapMac (pickMac (maxMacInit
      { ctx with macTries := some (ctx.macTries.getD 0 + 1) }))
    finishNicFn ctx4 (buildNic ctx4.validated)

/-- randomMAC: initialize macTries, then run the body. -/
def randomMAC (ctx0 : Ctx) : Ctx × Option NapiError :=
  randomMACBody (macTriesInit ctx0)

/-- The list of updatable NIC parameters of the update path. -/
def UPDATE_PARAMS : List String :=
  [ "allow_dhcp_spoofing",
    "allow_ip_spoofing",
    "allow_mac_spoofing",
    "allow_restricted_traffic",
    "allow_unfiltered_promisc",
    "belongs_to_type",
    "belongs_to_uuid",
    "check_owner",
    "cn_uuid",
    "ip",
    "owner_uuid",
    "model",
    "network",
    "network_uuid",
    "nic_tag",
    "nic_tags_provided",
    "primary",
    "reserved",
    "state",
    "vlan_id" ]

/-- getUpdatedNicParams: the serialization of the existing NIC,
overwritten by each validated updatable parameter, with the existing
etag recorded. -/
def getUpdatedNicParams (existingNic : Nic) (validated : Params) : Params :=
  let upd := UPDATE_PARAMS.foldl
    (fun acc p =>
      match validated.get p with
      | some v => acc.set p v
      | none => acc)
    existingNic.serialize
  upd.set "etag" existingNic.etag

/-- addUpdatedNic: build the updated NIC from getUpdatedNicParams and
link the IP chosen this iteration. -/
def addUpdatedNic (ctx : Ctx) : Ctx × Option NapiError :=
  match ctx.existingNic with
  | none =>
      (ctx, some { name := "TypeError",
                   message := some "existingNic is not set" })
  | some oldNIC =>
    finishNicFn ctx (buildNic (getUpdatedNicParams oldNIC ctx.validated))

/-- Dispatch a NIC-building function. -/
def runNicFn : NicFnKind → Ctx → Ctx × Option NapiError
  | .macSupplied, ctx => macSupplied ctx
  | .randomMAC, ctx => randomMAC ctx
  | .addUpdatedNic, ctx => addUpdatedNic ctx

/-- freeOldIPs: append a free-batch item for every IP recorded in
opts._removeIPs. -/
def freeOldIPs (ctx : Ctx) : Ctx :=
  match ctx.removeIPs with
  | none => ctx
  | some ips => { ctx with batch := ctx.batch ++ ips.map .ipFree }

/-- The fabric networks of the selected IPs, deduplicated by uuid in
insertion order (the networks object of listVnetCns). -/
def dedupNets : List Network → List String → List Network
  | [], _ => []
  | n :: rest, seen =>
    if seen.contains n.uuid then dedupNets rest seen
    else n :: dedupNets rest (n.uuid :: seen)

/-- Fold the fabric-member lookups of listVnetCns, concatenating the
member lists and propagating the first error. -/
def collectVnetCns (lookup : Nat → Except NapiError (List String)) :
    List Network → Except NapiError (List String)
  | [] => .ok []
  | n :: rest =>
    match lookup n.vnet_id with
    | .error e => .error e
    | .ok cns =>
      match collectVnetCns lookup rest with
      | .error e => .error e
      | .ok more => .ok (cns ++ more)

/-- listVnetCns (provision stage): for the fabric networks among the
selected IPs, look up the compute nodes sharing each vnet id and record
their union in opts.vnetCns; a no-op when no fabric network is
involved. -/
def listVnetCns (ctx : Ctx) : Ctx × Option NapiError :=
  let nets := dedupNets ((ctx.ips.map (fun ip => ip.network)).filter
    (fun n => n.fabric)) []
  if nets.isEmpty then
    (ctx, none)
  else
    match collectVnetCns ctx.vnetLookup nets with
    | .error e => (ctx, some e)
    | .ok cns => ({ ctx with vnetCns := some cns }, none)

/-- addNicToBatch: concatenate the batch items of the built NIC onto
the driver batch. -/
def addNicToBatch (ctx : Ctx) : Ctx :=
  { ctx with batch := ctx.batch ++ (match ctx.nic with
                                    | some n => n.batchItems
                                    | none => []) }

/-- nicBatch pipeline stage. -/
def nicBatch (ctx : Ctx) : Ctx := addNicToBatch ctx

/-- Modelled from the spec: common.commitBatch submits the batch
atomically; the outcome stream of the store environment yields the
result of each commit in turn (an exhausted stream commits cleanly). -/
def commitBatch (ctx : Ctx) : Ctx × Option NapiError :=
  match ctx.commitResults with
  | [] => (ctx, none)
  | r :: rest => ({ ctx with commitResults := rest }, r)

/-- runProvisions: run each provisioner in order, stopping at the first
error; provisioner state and context mutations persist either way. -/
def runProvisions : List Prov → Ctx → List Prov × Ctx × Option NapiError
  | [], ctx => ([], ctx, none)
  | p :: rest, ctx =>
    match p.provision ctx with
    | (p', ctx', some e) => (p' :: rest, ctx', some e)
    | (p', ctx', none) =>
      match runProvisions rest ctx' with
      | (rest', ctx'', oe) => (p' :: rest', ctx'', oe)

/-- One pass of the six-stage pipeline of nicAndIP: provisioners, free
old IPs, fabric members, NIC-building function, NIC batch, commit.  The
first failing stage ends the pass; state mutated up to that point
persists. -/
def runPipeline (ps : List Prov) (nf : NicFnKind) (ctx : Ctx) :
    List Prov × Ctx × Option NapiError :=
  match runProvisions ps ctx with
  | (ps', ctx1, some e) => (ps', ctx1, some e)
  | (ps', ctx1, none) =>
    let ctx2 := freeOldIPs ctx1
    match listVnetCns ctx2 with
    | (ctx3, some e) => (ps', ctx3, some e)
    | (ctx3, none) =>
      match runNicFn nf ctx3 with
      | (ctx4, some e) => (ps', ctx4, some e)
      | (ctx4, none) =>
        let ctx5 := nicBatch ctx4
        match commitBatch ctx5 with
        | (ctx6, oe) => (ps', ctx6, oe)

/-- Reset of opts.batch and opts.ips at the top of every loop
iteration. -/
def resetCtx (ctx : Ctx) : Ctx := { ctx with batch := [], ips := [] }

/-- Result of the nicAndIP retry loop. -/
inductive LoopResult
  | ok (nic : Option Nic)
  | err (e : NapiError)
  | fuelOut
deriving DecidableEq, Repr

/-- The util_common.repeat loop of nicAndIP: reset batch and ips, run
the pipeline; a stop-flagged error is returned, any other error is
recorded in opts.err and the loop runs again, and a clean commit
returns the built NIC.  The fuel bounds the unrolling only. -/
def nicAndIPLoop (nf : NicFnKind) : Nat → List Prov → Ctx → LoopResult
  | 0, _, _ => .fuelOut
  | fuel + 1, ps, ctx =>
    match runPipeline ps nf (resetCtx ctx) with
    | (ps', ctx', some e) =>
      if e.stop then .err e
      else nicAndIPLoop nf fuel ps' { ctx' with err := some e }
    | (_, ctx', none) => .ok ctx'.nic

/-- The single validated _ip parameter as a provisionable list. -/
def ipListOfVal : Option Val → List IPObj
  | some (.ipobj ip) => [ip]
  | _ => []

/-- Modelled from the spec: mod_ip.params selects the IP-related fields
of a parameter bag as the base parameters used to synthesize IP records
(mod_ip is not part of the source tree). -/
def ipParams (p : Params) : Params :=
  p.filter (fun kv =>
    [ "belongs_to_type", "belongs_to_uuid", "owner_uuid", "check_owner",
      "reserved", "network_uuid" ].contains kv.1)

/-- Modelled from the spec: mod_ip.createUpdated builds the IP record
to write for a requested address, keeping its address and network and
taking ownership fields from the base parameters (mod_ip is not part of
the source tree). -/
def createUpdated (ip : IPObj) (base : Params) : IPObj :=
  { ip with belongs_to_uuid :=
      match base.getStr "belongs_to_uuid" with
      | some s => some s
      | none => ip.belongs_to_uuid }

/-- addParams: choose macSupplied when a MAC was validated and
randomMAC otherwise, record the base IP parameters, and expose the
requested specific IP (if any) as the singleton _provisionableIPs. -/
def addParams (ctx : Ctx) : Ctx :=
  let ctx1 := { ctx with
    nicFn := if ctx.validated.truthy "mac" then NicFnKind.macSupplied
             else NicFnKind.randomMAC,
    baseParams := ipParams ctx.validated }
  if (ctx1.validated.get "_ip").isSome then
    { ctx1 with provisionableIPs := some (ipListOfVal (ctx1.validated.get "_ip")) }
  else ctx1

/-- The provisioner list nicAndIP constructs: one IPProvision per
provisionable IP when a specific IP was requested (no field argument is
passed), else one pool provisioner, else one network provisioner, else
none. -/
def mkProvisioners (ctx : Ctx) : List Prov :=
  if ctx.validated.truthy "_ip" then
    (ctx.provisionableIPs.getD []).map
      (fun ip => Prov.ipP (IPProvision.make (createUpdated ip ctx.baseParams) none))
  else
    match ctx.validated.get "network_pool" with
    | some (.pool p) => [Prov.poolP (NetworkPoolProvision.make p "network_uuid")]
    | _ =>
      match ctx.validated.get "network" with
      | some (.net n) => [Prov.netP { ip := none, network := n }]
      | _ => []

/-- nicAndIP: construct the provisioners and run the retry loop. -/
def nicAndIP (fuel : Nat) (ctx : Ctx) : LoopResult :=
  nicAndIPLoop ctx.nicFn fuel (mkProvisioners ctx) ctx

/-- prepareUpdate (update path): choose addUpdatedNic and the base IP
parameters; when the update carries an _ip, record it as the
provisionable IP, record the old IP in _removeIPs only when its address
is no longer used and its owner still matches the NIC owner, and fail
with a used-by error when a newly added IP is not provisionable. -/
def prepareUpdate (ctx : Ctx) : Ctx × Option NapiError :=
  match ctx.existingNic with
  | none =>
      (ctx, some { name := "TypeError",
                   message := some "existingNic is not set" })
  | some oldNIC =>
    let ctx1 := { ctx with
      nicFn := NicFnKind.addUpdatedNic,
      baseParams := ipParams (getUpdatedNicParams oldNIC ctx.validated) }
    if !(ctx1.validated.get "_ip").isSome then
      (ctx1, none)
    else
      let oldIPs := match oldNIC.ip with
                    | some ip => [ip]
                    | none => []
      let nicOwner := oldNIC.belongsTo
      let ips := ipListOfVal (ctx1.validated.get "_ip")
      let newAddrs := ips.map IPObj.v6address
      let oldAddrs := oldIPs.map IPObj.v6address
      let ctx2 := { ctx1 with
        provisionableIPs := some ips,
        removeIPs := some (oldIPs.filter (fun oldIP =>
          !(newAddrs.contains oldIP.v6address) &&
            nicOwner == oldIP.belongs_to_uuid)) }
      match (ips.filter (fun newIP => !(oldAddrs.contains newIP.v6address))).find?
          (fun ip => !ip.provisionable) with
      | some badIP => (ctx2, some (usedByErr badIP))
      | none => (ctx2, none)

/-- delIP (delete path): append an unassign batch item for the IP only
when its owner matches the NIC owner; a mismatch is logged and changes
nothing. -/
def delIP (nic : Nic) (ip : IPObj) (batch : List BatchItem) : List BatchItem :=
  if ip.belongs_to_uuid == nic.belongsTo then
    batch ++ [.ipUnassign ip]
  else
    batch

/-- delIPs (delete path): apply delIP to the NIC IP when there is
one. -/
def delIPs (nic : Nic) (batch : List BatchItem) : List BatchItem :=
  match nic.ip with
  | none => batch
  | some ip => delIP nic ip batch

/-- listVnetCns of the delete path: a fabric-member lookup only for a
fabric NIC. -/
def delListVnetCns (nic : Nic) (lookup : Nat → Except NapiError (List String)) :
    Except NapiError (Option (List String)) :=
  match nic.network with
  | some net =>
    if net.fabric then
      match lookup net.vnet_id with
      | .error e => .error e
      | .ok cns => .ok (some cns)
    else .ok none
  | none => .ok none

/-- Observable outcome of the delete pipeline: the final error, the
batch that was built, and whether the commit stage was reached. -/
structure DelOutcome where
  err : Option NapiError
  batch : List BatchItem
  committed : Bool
deriving DecidableEq, Repr

/-- del (delete path): validate, load the NIC, gather fabric members,
build the delete batch, release owned IPs, and commit.  Validation, the
NIC load and the commit outcome are oracles of the store
environment. -/
def del (validateErr : Option NapiError) (getRes : Except NapiError Nic)
    (lookup : Nat → Except NapiError (List String))
    (commitRes : Option NapiError) : DelOutcome :=
  match validateErr with
  | some e => ⟨some e, [], false⟩
  | none =>
    match getRes with
    | .error e => ⟨some e, [], false⟩
    | .ok nic =>
      match delListVnetCns nic lookup with
      | .error e => ⟨some e, [], false⟩
      | .ok _ =>
        let batch := nic.delBatch
        let batch := delIPs nic batch
        ⟨commitRes, batch, true⟩

/-- Concrete existing NIC for the C8 witness. -/
def nicW : Nic := buildNic [("mac", .nat 5), ("belongs_to_uuid", .str "owner-1")]

/-- Concrete validated update parameters for the C8 witness (they carry
a mac, which must nonetheless never be copied). -/
def validatedW : Params := [("mac", .nat 9), ("state", .str "running")]

/-- Concrete update context for the C8 witness. -/
def ctxC8 : Ctx := { validated := validatedW, existingNic := some nicW }

/-- Concrete network for the C1 failing input. -/
def net1 : Network := { uuid := "net1" }

/-- Concrete requested IP for the C1 failing input. -/
def ip1 : IPObj := { address := "10.0.0.5", v6address := "::ffff:10.0.0.5", network := net1 }

/-- The IPProvision built for ip1 the way nicAndIP builds it (no field
argument is passed). -/
def ipProv1 : IPProvision := IPProvision.make ip1 none

/-- A previous-iteration error that is a version conflict on exactly
this IP key in exactly this network per-network bucket. -/
def etagOnIp1 : NapiError :=
  { name := "EtagConflictError",
    etagCause := some { bucket := bucketName (some net1.uuid), key := ip1.key } }

/-- Context carrying that previous error. -/
def ctxC1 : Ctx := { err := some etagOnIp1 }

/-- Claim-side predicate, following the spec words: the previous error
is a version conflict on the NIC bucket key matching the MAC of this
request. -/
def specNicConflictOnThisMac (validated : Params) (err : Option NapiError) : Bool :=
  match err with
  | none => false
  | some e =>
    match e.etagCause with
    | none => false
    | some c =>
      c.bucket == NIC_BUCKET_NAME && c.key == nicKeyOfMac (validated.natD "mac")

/-- A previous error that is an etag conflict in the NIC bucket on a
key that does not match the MAC of this request. -/
def nicBucketConflictOther : NapiError :=
  { name := "EtagConflictError",
    etagCause := some { bucket := NIC_BUCKET_NAME, key := "2" } }

/-- Context for the C2 counterexample: a NIC was built on an earlier
iteration, the request MAC is 1, and the conflict key is 2. -/
def ctxC2 : Ctx :=
  { validated := [("mac", .nat 1)], nic := some (buildNic []),
    err := some nicBucketConflictOther }

/-- Concrete context for the C2 amended witness: no prior NIC, one
chosen IP. -/
def ctxC2w : Ctx := { validated := [("mac", .nat 1)], ips := [ip1] }

/-- Concrete context on which the pipeline commits cleanly. -/
def ctxS : Ctx := { validated := [("mac", .nat 7)] }

/-- Concrete context on which the NIC-building stage raises a stopping
error (a prior NIC and a NIC-bucket conflict). -/
def ctxStop : Ctx :=
  { validated := [("mac", .nat 7)], nic := some (buildNic []),
    err := some nicBucketConflictOther }

/-- A non-stopping commit error (an etag conflict). -/
def transientErr : NapiError :=
  { name := "EtagConflictError",
    etagCause := some { bucket := "napi_ips_x", key := "k" } }

/-- Concrete context whose first commit fails without the stop flag. -/
def ctxRetry : Ctx :=
  { validated := [("mac", .nat 7)], commitResults := [some transientErr] }

/-- Network of the C7 witness. -/
def netC7 : Network := { uuid := "net7" }

/-- Old IP of the C7 witness, reassigned to another owner. -/
def oldIP7 : IPObj :=
  { address := "10.0.0.8", v6address := "::ffff:10.0.0.8", network := netC7,
    belongs_to_uuid := some "other-owner" }

/-- New IP of the C7 witness. -/
def newIP7 : IPObj :=
  { address := "10.0.0.9", v6address := "::ffff:10.0.0.9", network := netC7 }

/-- Existing NIC of the C7 witness. -/
def oldNIC7 : Nic :=
  { params := [("belongs_to_uuid", .str "nic-owner")], ip := some oldIP7 }

/-- Update context of the C7 witness. -/
def ctxC7 : Ctx := { validated := [("_ip", .ipobj newIP7)], existingNic := some oldNIC7 }

/-- Concrete context for the C4 witness: no MAC yet, fresh counters,
OUI 9, one queued random draw. -/
def ctxC4 : Ctx := { macOUI := 9, randoms := [5] }

/-- The subnet-full error with the stop flag removed, as recorded by
the driver after a pool fetch. -/
def subnetFullNoStop (u : String) : NapiError := { subnetFullError u with stop := false }

/-- Single-network provisioner of the C5 witness. -/
def netProv5 : NetworkProvision := { ip := none, network := net1 }

/-- Pool provisioner of the C5 witness with a selected network. -/
def poolProv5 : NetworkPoolProvision :=
  { ip := none, network := some net1, pool := { uuid := "pool5", networks := [] },
    field := "network_uuid", poolUUIDs := ["n2"] }

/-- Context of the C5 witness whose store reports every network full
(the default next-IP oracle). -/
def ctxC5 : Ctx := {}

/-- Context of the C5 witness carrying the recorded subnet-full error
of net1. -/
def ctxC5c : Ctx := { err := some (subnetFullNoStop net1.uuid) }

/-- Pool of the C6 witness with two members. -/
def pool6 : NetworkPool := { uuid := "pool6", networks := ["n1", "n2"] }

/-- Fresh pool provisioner of the C6 witness. -/
def poolProv6 : NetworkPoolProvision := NetworkPoolProvision.make pool6 "network_uuid"

/-- Exhausted pool provisioner of the C6 witness. -/
def poolProv6e : NetworkPoolProvision := { poolProv6 with poolUUIDs := [] }

/-- Context of the C6 witness (default store: every network lookup
succeeds). -/
def ctxC6 : Ctx := {}

/-- Deleted NIC of the C9 witness, whose IP has been reassigned to
another owner. -/
def nic9 : Nic := { params := [("belongs_to_uuid", .str "nic-owner")], ip := some oldIP7 }

/-- A fresh request context for the C10 witness. -/
def ctxF : Ctx := { validated := [("mac", .nat 7)] }

/-!
Shallow embedding of the NIC/IP allocation core of sdc-napi:
the provisioner objects and retry loop of lib/models/nic/provision.js,
the update reconciler (nic model: updating), and the delete path
(nic model: deleting).  Callback pipelines are embedded as explicit
state-passing functions; the versioned store, the network getter and the
fabric-member listing are oracles carried in the context, and randomness
is an explicit stream of draws.  Collaborator modules that are not part
of the source tree (mod_ip, util_mac, constants, errors, obj.js) are
modelled from the specification where noted.
-/

/-! Helper lemmas about parameter bags. -/

/-- Reading a key just written returns the written value. -/
theorem Params.get_set_self (p : Params) (k : String) (v : Val) :
    (p.set k v).get k = some v := by
  induction p with
  | nil => simp [Params.set, Params.get]
  | cons kv rest ih =>
    obtain ⟨a, b⟩ := kv
    by_cases h : a = k
    · subst h
      simp [Params.set, Params.get]
    · have hb : (a == k) = false := by simpa using h
      simp [Params.set, Params.get, hb, ih]

/-- Writing one key leaves reads of any other key unchanged. -/
theorem Params.get_set_ne (p : Params) (k k' : String) (v : Val) (h : k ≠ k') :
    (p.set k v).get k' = p.get k' := by
  have hkk' : (k == k') = false := by simpa using h
  induction p with
  | nil => simp [Params.set, Params.get, hkk']
  | cons kv rest ih =>
    obtain ⟨a, b⟩ := kv
    by_cases hak : a = k
    · subst hak
      simp [Params.set, Params.get, hkk']
    · have hb : (a == k) = false := by simpa using hak
      by_cases hak' : a = k'
      · subst hak'
        simp [Params.set, Params.get, hb]
      · have hb' : (a == k') = false := by simpa using hak'
        simp [Params.set, Params.get, hb, hb', ih]

/-- Folding updates over keys that avoid k leaves reads of k
unchanged. -/
theorem foldl_set_get_of_not_mem (vd : Params) (keys : List String) (base : Params)
    (k : String) (hk : ∀ q ∈ keys, q ≠ k) :
    (keys.foldl
      (fun acc q =>
        match vd.get q with
        | some v => acc.set q v
        | none => acc)
      base).get k = base.get k := by
  induction keys generalizing base with
  | nil => rfl
  | cons q rest ih =>
    simp only [List.foldl_cons]
    have hrest : ∀ r ∈ rest, r ≠ k := fun r hr => hk r (List.mem_cons_of_mem _ hr)
    cases hv : vd.get q with
    | none => exact ih base hrest
    | some v =>
      exact (ih (base.set q v) hrest).trans
        (Params.get_set_ne base q k v (hk q (List.mem_cons_self q rest)))

/-- Linking IPs onto a NIC never changes its parameter bag. -/
theorem linkNicIPs_params (nic : Nic) (ips : List IPObj) (n : Nic)
    (h : linkNicIPs nic ips = .ok n) : n.params = nic.params := by
  match ips with
  | [] => cases h; rfl
  | [ip] => cases h; rfl
  | a :: b :: rest => simp [linkNicIPs] at h

/-! Claim C8: the update path preserves the MAC. -/

/-- C8: a successful update keeps the MAC of the existing NIC: mac is
not among the updatable parameters copied over the serialization of the
existing NIC, so getUpdatedNicParams and the NIC built by addUpdatedNic
carry the mac of the existing serialization. -/
theorem c8_update_preserves_mac (nic : Nic) (validated : Params) (ctx : Ctx) (n : Nic)
    (hex : ctx.existingNic = some nic) (hv : ctx.validated = validated)
    (hn : (addUpdatedNic ctx).1.nic = some n) :
    UPDATE_PARAMS.contains "mac" = false ∧
    (getUpdatedNicParams nic validated).get "mac" = nic.serialize.get "mac" ∧
    n.params.get "mac" = nic.serialize.get "mac" := by
  have hmacs : (getUpdatedNicParams nic validated).get "mac" = nic.serialize.get "mac" := by
    unfold getUpdatedNicParams
    rw [Params.get_set_ne _ _ _ _ (by decide)]
    exact foldl_set_get_of_not_mem validated UPDATE_PARAMS nic.serialize "mac" (by decide)
  refine ⟨by decide, hmacs, ?_⟩
  unfold addUpdatedNic finishNicFn at hn
  rw [hex] at hn
  simp only at hn
  cases hlink : linkNicIPs (buildNic (getUpdatedNicParams nic ctx.validated)) ctx.ips with
  | error e =>
    rw [hlink] at hn
    simp only at hn
    cases hn
    rw [hv]
    simpa [buildNic] using hmacs
  | ok n1 =>
    rw [hlink] at hn
    simp only at hn
    cases hn
    rw [linkNicIPs_params _ _ _ hlink]
    rw [hv]
    simpa [buildNic] using hmacs

/-- Witness for C8 at a concrete update. -/
theorem c8_witness :
    UPDATE_PARAMS.contains "mac" = false ∧
    (getUpdatedNicParams nicW validatedW).get "mac" = nicW.serialize.get "mac" ∧
    (buildNic (getUpdatedNicParams nicW validatedW)).params.get "mac" =
      nicW.serialize.get "mac" :=
  c8_update_preserves_mac nicW validatedW ctxC8
    (buildNic (getUpdatedNicParams nicW validatedW)) rfl rfl (by decide)

/-! Claim C1: IPProvision and a version conflict on its own IP. -/

/-- C1: at the failing input, the previous error is a version conflict
on this IP key in this network bucket (first conjunct states the claim
condition against the real network object), yet IPProvision.provision
does not stop: it succeeds and re-appends the same IP, because the
constructor stored ip.params.network.uuid (a bare string) in the
network slot, so haveEtagFailure compares against the bucket of an
undefined uuid and can never match. -/
theorem c1_ipprovision_ignores_own_conflict :
    haveEtagFailure (some ip1) (NetSlot.netObj net1) (some etagOnIp1) = true ∧
    haveEtagFailure (some ip1) ipProv1.network (some etagOnIp1) = false ∧
    (IPProvision.provision ipProv1 ctxC1).2.2 = none ∧
    (IPProvision.provision ipProv1 ctxC1).2.1.ips = [ip1] := by
  refine ⟨by decide, by decide, rfl, rfl⟩

/-! Claim C2: macSupplied and the NIC-bucket conflict. -/

/-- C2 counterexample: macSupplied fails with the stopping
duplicate-mac error even though the previous error is not a conflict on
the NIC bucket key matching this request MAC, refuting the claimed
if-and-only-if at this input (nicEtagFail compares only the bucket,
never the key). -/
theorem c2_counterexample :
    ¬(((macSupplied ctxC2).2 = some macInUseErr) ↔
        specNicConflictOnThisMac ctxC2.validated ctxC2.err = true) := by
  decide

/-- C2 amended: macSupplied fails with the stopping duplicate-mac error
precisely when a NIC was already built and the previous error has an
etag-conflict cause in the NIC bucket (any key); otherwise it builds
the NIC from the validated parameters and links the IP chosen this
iteration, if any. -/
theorem c2_macSupplied_conflict_iff (ctx : Ctx) (h : ctx.ips.length ≤ 1) :
    ((macSupplied ctx).2 = some macInUseErr ↔
      (ctx.nic.isSome && nicEtagFail ctx.err) = true) ∧
    ((ctx.nic.isSome && nicEtagFail ctx.err) = false →
      (macSupplied ctx).2 = none ∧
      ∃ n, (macSupplied ctx).1.nic = some n ∧
        n.params = ctx.validated ∧
        (ctx.ips = [] → n.ip = none) ∧
        ∀ ip, ctx.ips = [ip] → n.ip = some ip ∧ n.network = some ip.network) := by
  by_cases hb : (ctx.nic.isSome && nicEtagFail ctx.err) = true
  · have hres : macSupplied ctx = (ctx, some macInUseErr) := by
      unfold macSupplied
      rw [if_pos hb]
    rw [hres]
    refine ⟨by simp [hb], fun hfalse => ?_⟩
    rw [hb] at hfalse
    cases hfalse
  · have hb0 : (ctx.nic.isSome && nicEtagFail ctx.err) = false := by
      simpa using hb
    unfold macSupplied
    rw [if_neg hb]
    cases hips : ctx.ips with
    | nil =>
      simp only [linkNicIPs]
      refine ⟨by simp [hb0], fun _ => ⟨trivial, ?_⟩⟩
      refine ⟨_, rfl, ?_, fun _ => ?_, fun ip hip => by simp at hip⟩
      · split <;> rfl
      · split <;> rfl
    | cons a tl =>
      cases htl : tl with
      | nil =>
        simp only [linkNicIPs]
        refine ⟨by simp [hb0], fun _ => ⟨trivial, ?_⟩⟩
        refine ⟨_, rfl, ?_, fun hnil => by simp at hnil, fun ip hip => ?_⟩
        · split <;> rfl
        · have ha : a = ip := by simpa using hip
          subst ha
          constructor
          · split <;> rfl
          · split <;> rfl
      | cons b rest =>
        rw [hips, htl] at h
        simp at h

/-- Witness for the C2 amended theorem at a concrete context. -/
theorem c2_amended_witness :
    ((macSupplied ctxC2w).2 = some macInUseErr ↔
      (ctxC2w.nic.isSome && nicEtagFail ctxC2w.err) = true) :=
  (c2_macSupplied_conflict_iff ctxC2w (by decide)).1

/-! Claim C3: the retry loop of nicAndIP. -/

/-- Unfolding equation of one loop iteration. -/
theorem nicAndIPLoop_succ (nf : NicFnKind) (fuel : Nat) (ps : List Prov) (ctx : Ctx) :
    nicAndIPLoop nf (fuel + 1) ps ctx =
      match runPipeline ps nf (resetCtx ctx) with
      | (ps', ctx', some e) =>
        if e.stop then .err e
        else nicAndIPLoop nf fuel ps' { ctx' with err := some e }
      | (_, ctx', none) => .ok ctx'.nic := rfl

/-- C3: every iteration of the retry loop starts by resetting batch and
ips (the loop result never depends on the incoming batch and ips); a
pipeline failure carrying the stop flag is returned immediately; a
failure without it is recorded in opts.err and a full new iteration
runs with the surviving provisioner and context state; and a clean
commit returns the built NIC. -/
theorem c3_nicAndIP_loop (nf : NicFnKind) (fuel : Nat) (ps : List Prov) (ctx : Ctx)
    (b : List BatchItem) (i : List IPObj) :
    (nicAndIPLoop nf (fuel + 1) ps { ctx with batch := b, ips := i } =
      nicAndIPLoop nf (fuel + 1) ps ctx) ∧
    (∀ e, (runPipeline ps nf (resetCtx ctx)).2.2 = some e →
      (e.stop = true → nicAndIPLoop nf (fuel + 1) ps ctx = .err e) ∧
      (e.stop = false →
        nicAndIPLoop nf (fuel + 1) ps ctx =
          nicAndIPLoop nf fuel (runPipeline ps nf (resetCtx ctx)).1
            { (runPipeline ps nf (resetCtx ctx)).2.1 with err := some e })) ∧
    ((runPipeline ps nf (resetCtx ctx)).2.2 = none →
      nicAndIPLoop nf (fuel + 1) ps ctx =
        .ok (runPipeline ps nf (resetCtx ctx)).2.1.nic) := by
  rcases hrp : runPipeline ps nf (resetCtx ctx) with ⟨ps', ctx', oe⟩
  refine ⟨rfl, ?_, ?_⟩
  · intro e he
    replace he : oe = some e := he
    subst he
    constructor
    · intro hstop
      rw [nicAndIPLoop_succ, hrp]
      simp [hstop]
    · intro hstop
      rw [nicAndIPLoop_succ, hrp]
      simp [hstop]
  · intro hnone
    replace hnone : oe = none := hnone
    subst hnone
    rw [nicAndIPLoop_succ, hrp]

/-! Helper lemmas about the ips discipline of the pipeline stages. -/

/-- The assert of the NIC-building functions only fires on two or more
selected IPs. -/
theorem linkNicIPs_error_imp (nic : Nic) (ips : List IPObj) (e : NapiError)
    (h : linkNicIPs nic ips = .error e) : 2 ≤ ips.length ∧ e = assertIpsError := by
  match ips with
  | [] => cases h
  | [a] => cases h
  | a :: b :: r =>
    unfold linkNicIPs at h
    cases h
    exact ⟨by simp, rfl⟩

/-- Linking succeeds on at most one selected IP. -/
theorem linkNicIPs_ok_of_short (nic : Nic) (ips : List IPObj) (h : ips.length ≤ 1) :
    ∃ n, linkNicIPs nic ips = .ok n := by
  match ips with
  | [] => exact ⟨nic, rfl⟩
  | [a] => exact ⟨_, rfl⟩
  | a :: b :: r => simp at h

/-- If the build-and-link tail reports the assertion error, at least
two IPs were selected. -/
theorem finishNicFn_assert_imp (ctx : Ctx) (nic0 : Nic)
    (h : (finishNicFn ctx nic0).2 = some assertIpsError) : 2 ≤ ctx.ips.length := by
  unfold finishNicFn at h
  cases hl : linkNicIPs nic0 ctx.ips with
  | error e => exact (linkNicIPs_error_imp _ _ _ hl).1
  | ok n =>
    rw [hl] at h
    cases h

theorem macTriesInit_ips (ctx : Ctx) : (macTriesInit ctx).ips = ctx.ips := by
  unfold macTriesInit
  split <;> rfl

theorem maxMacInit_ips (ctx : Ctx) : (maxMacInit ctx).ips = ctx.ips := by
  unfold maxMacInit
  split <;> rfl

theorem pickMac_ips (ctx : Ctx) : (pickMac ctx).ips = ctx.ips := by
  unfold pickMac
  split <;> rfl

theorem wrapMac_ips (ctx : Ctx) : (wrapMac ctx).ips = ctx.ips := by
  unfold wrapMac
  split <;> rfl

/-- macSupplied never reports the assertion error on at most one
selected IP. -/
theorem macSupplied_no_assert (ctx : Ctx) (h : ctx.ips.length ≤ 1) :
    (macSupplied ctx).2 ≠ some assertIpsError := by
  unfold macSupplied
  split
  · intro hc
    exact absurd (Option.some.inj hc) (by decide)
  · obtain ⟨n, hn⟩ := linkNicIPs_ok_of_short (buildNic ctx.validated) ctx.ips h
    dsimp only
    rw [hn]
    simp

/-- randomMAC never reports the assertion error on at most one selected
IP. -/
theorem randomMAC_no_assert (ctx0 : Ctx) (h : ctx0.ips.length ≤ 1) :
    (randomMAC ctx0).2 ≠ some assertIpsError := by
  unfold randomMAC randomMACBody
  dsimp only
  split
  · intro hc
    have h2 := finishNicFn_assert_imp _ _ hc
    rw [macTriesInit_ips] at h2
    omega
  · split
    · intro hc
      exact absurd (Option.some.inj hc) (by decide)
    · intro hc
      have h2 := finishNicFn_assert_imp _ _ hc
      rw [wrapMac_ips, pickMac_ips, maxMacInit_ips] at h2
      dsimp only at h2
      rw [macTriesInit_ips] at h2
      omega

/-- addUpdatedNic never reports the assertion error on at most one
selected IP. -/
theorem addUpdatedNic_no_assert (ctx : Ctx) (h : ctx.ips.length ≤ 1) :
    (addUpdatedNic ctx).2 ≠ some assertIpsError := by
  unfold addUpdatedNic
  cases hex : ctx.existingNic with
  | none =>
    intro hc
    exact absurd (Option.some.inj hc) (by decide)
  | some oldNIC =>
    intro hc
    have h2 := finishNicFn_assert_imp _ _ hc
    omega

/-- No NIC-building function reports the assertion error on at most one
selected IP. -/
theorem runNicFn_no_assert (nf : NicFnKind) (ctx : Ctx) (h : ctx.ips.length ≤ 1) :
    (runNicFn nf ctx).2 ≠ some assertIpsError := by
  cases nf with
  | macSupplied => exact macSupplied_no_assert ctx h
  | randomMAC => exact randomMAC_no_assert ctx h
  | addUpdatedNic => exact addUpdatedNic_no_assert ctx h

/-- A successful provisioner run appends exactly one IP to opts.ips. -/
theorem NetworkProvision.fetchHere_cases (q : NetworkProvision) (ctx : Ctx) :
    (∃ e, q.fetchHere ctx = (q, ctx, some e)) ∨
    (∃ ip, q.fetchHere ctx = ({ q with ip := some ip }, batchIP ip ctx, none)) := by
  cases hn : ctx.nextIPonNetwork q.network.uuid with
  | error e =>
    refine .inl ⟨e, ?_⟩
    simp [NetworkProvision.fetchHere, fetchNextIP, hn]
  | ok ip =>
    refine .inr ⟨ip, ?_⟩
    simp [NetworkProvision.fetchHere, fetchNextIP, hn]

theorem NetworkPoolProvision.poolFetchHere_cases (q : NetworkPoolProvision) (net : Network)
    (ctx : Ctx) :
    (∃ e, q.fetchHere net ctx = (q, ctx, some e)) ∨
    (∃ ip, q.fetchHere net ctx = ({ q with ip := some ip }, batchIP ip ctx, none)) := by
  cases hn : ctx.nextIPonNetwork net.uuid with
  | error e =>
    refine .inl ⟨if e.stop then { e with stop := false } else e, ?_⟩
    simp [NetworkPoolProvision.fetchHere, fetchNextIP, hn]
  | ok ip =>
    refine .inr ⟨ip, ?_⟩
    simp [NetworkPoolProvision.fetchHere, fetchNextIP, hn]

theorem NetworkPoolProvision.nextNetwork_cases (q : NetworkPoolProvision) (ctx : Ctx) :
    (∃ q' e, q.nextNetwork ctx = (q', ctx, some e)) ∨
    (∃ q' ip, q.nextNetwork ctx = (q', batchIP ip ctx, none)) := by
  cases hu : q.poolUUIDs with
  | nil =>
    refine .inl ⟨q, poolFullError q.field, ?_⟩
    simp [NetworkPoolProvision.nextNetwork, hu]
  | cons u rest =>
    cases hg : ctx.netGet u with
    | error e =>
      refine .inl ⟨{ q with poolUUIDs := rest }, e, ?_⟩
      simp [NetworkPoolProvision.nextNetwork, hu, hg]
    | ok net =>
      have hq : q.nextNetwork ctx =
          ({ q with poolUUIDs := rest, network := some net }.fetchHere net ctx) := by
        simp [NetworkPoolProvision.nextNetwork, NetworkPoolProvision.fetchHere, hu, hg]
      rcases NetworkPoolProvision.poolFetchHere_cases
          { q with poolUUIDs := rest, network := some net } net ctx with ⟨e, he⟩ | ⟨ip, hip⟩
      · exact .inl ⟨_, e, by rw [hq, he]⟩
      · exact .inr ⟨_, ip, by rw [hq, hip]⟩

/-- Every provisioner run either fails leaving the driver context
unchanged, or succeeds appending exactly one IP via batchIP. -/
theorem Prov.provision_cases (p : Prov) (ctx : Ctx) :
    (∃ p' e, p.provision ctx = (p', ctx, some e)) ∨
    (∃ p' ip, p.provision ctx = (p', batchIP ip ctx, none)) := by
  cases p with
  | ipP q =>
    cases hc : haveEtagFailure (some q.ip) q.network ctx.err with
    | true =>
      refine .inl ⟨.ipP q, ipInUseError q.field q.ip.address q.network.uuidProp, ?_⟩
      simp [Prov.provision, IPProvision.provision, hc]
    | false =>
      refine .inr ⟨.ipP q, q.ip, ?_⟩
      simp [Prov.provision, IPProvision.provision, hc]
  | netP q =>
    have hlift : ∀ r : NetworkProvision × Ctx × Option NapiError,
        Prov.provision (.netP q) ctx = (.netP r.1, r.2.1, r.2.2) →
        ((∃ e, r = (q, ctx, some e)) ∨
         (∃ ip, r = ({ q with ip := some ip }, batchIP ip ctx, none))) →
        (∃ p' e, Prov.provision (.netP q) ctx = (p', ctx, some e)) ∨
        (∃ p' ip, Prov.provision (.netP q) ctx = (p', batchIP ip ctx, none)) := by
      rintro r hpr (⟨e, he⟩ | ⟨ip, hip⟩)
      · exact .inl ⟨.netP r.1, e, by rw [hpr, he]⟩
      · exact .inr ⟨.netP r.1, ip, by rw [hpr, hip]⟩
    cases hip : q.ip with
    | none =>
      refine hlift (q.fetchHere ctx) ?_ ?_
      · simp [Prov.provision, NetworkProvision.provision, hip]
      · rcases NetworkProvision.fetchHere_cases q ctx with ⟨e, he⟩ | ⟨ip, hx⟩
        · exact .inl ⟨e, he⟩
        · exact .inr ⟨ip, hx⟩
    | some ip =>
      cases hc : haveEtagFailure (some ip) (.netObj q.network) ctx.err with
      | true =>
        refine hlift (q.fetchHere ctx) ?_ ?_
        · simp [Prov.provision, NetworkProvision.provision, hip, hc]
        · rcases NetworkProvision.fetchHere_cases q ctx with ⟨e, he⟩ | ⟨ip', hx⟩
          · exact .inl ⟨e, he⟩
          · exact .inr ⟨ip', hx⟩
      | false =>
        refine .inr ⟨.netP q, ip, ?_⟩
        simp [Prov.provision, NetworkProvision.provision, hip, hc]
  | poolP q =>
    have hlift : ∀ r : NetworkPoolProvision × Ctx × Option NapiError,
        Prov.provision (.poolP q) ctx = (.poolP r.1, r.2.1, r.2.2) →
        ((∃ q' e, r = (q', ctx, some e)) ∨
         (∃ q' ip, r = (q', batchIP ip ctx, none))) →
        (∃ p' e, Prov.provision (.poolP q) ctx = (p', ctx, some e)) ∨
        (∃ p' ip, Prov.provision (.poolP q) ctx = (p', batchIP ip ctx, none)) := by
      rintro r hpr (⟨q', e, he⟩ | ⟨q', ip, hip⟩)
      · exact .inl ⟨.poolP r.1, e, by rw [hpr, he]⟩
      · exact .inr ⟨.poolP r.1, ip, by rw [hpr, hip]⟩
    have hfetchlift : ∀ net : Network,
        Prov.provision (.poolP q) ctx =
          (.poolP (q.fetchHere net ctx).1, (q.fetchHere net ctx).2.1,
            (q.fetchHere net ctx).2.2) →
        (∃ p' e, Prov.provision (.poolP q) ctx = (p', ctx, some e)) ∨
        (∃ p' ip, Prov.provision (.poolP q) ctx = (p', batchIP ip ctx, none)) := by
      intro net hpr
      refine hlift (q.fetchHere net ctx) hpr ?_
      rcases NetworkPoolProvision.poolFetchHere_cases q net ctx with ⟨e, he⟩ | ⟨ip, hx⟩
      · exact .inl ⟨q, e, he⟩
      · exact .inr ⟨{ q with ip := some ip }, ip, hx⟩
    have hnextlift :
        Prov.provision (.poolP q) ctx =
          (.poolP (q.nextNetwork ctx).1, (q.nextNetwork ctx).2.1,
            (q.nextNetwork ctx).2.2) →
        (∃ p' e, Prov.provision (.poolP q) ctx = (p', ctx, some e)) ∨
        (∃ p' ip, Prov.provision (.poolP q) ctx = (p', batchIP ip ctx, none)) := by
      intro hpr
      exact hlift (q.nextNetwork ctx) hpr (NetworkPoolProvision.nextNetwork_cases q ctx)
    cases hnet : q.network with
    | none =>
      refine hnextlift ?_
      simp [Prov.provision, NetworkPoolProvision.provision, hnet]
    | some net =>
      cases hf : q.haveNetFailure ctx.err with
      | true =>
        refine hnextlift ?_
        simp [Prov.provision, NetworkPoolProvision.provision, hnet, hf]
      | false =>
        cases hip : q.ip with
        | none =>
          refine hfetchlift net ?_
          simp [Prov.provision, NetworkPoolProvision.provision, hnet, hf, hip]
        | some ip =>
          cases hc : haveEtagFailure (some ip) (.netObj net) ctx.err with
          | true =>
            refine hfetchlift net ?_
            simp [Prov.provision, NetworkPoolProvision.provision, hnet, hf, hip, hc]
          | false =>
            refine .inr ⟨.poolP q, ip, ?_⟩
            simp [Prov.provision, NetworkPoolProvision.provision, hnet, hf, hip, hc]

/-- A successful provisioner run appends exactly one IP to opts.ips. -/
theorem Prov.provision_ips_of_ok (p : Prov) (ctx : Ctx)
    (h : (p.provision ctx).2.2 = none) :
    ∃ ip, (p.provision ctx).2.1.ips = ctx.ips ++ [ip] := by
  rcases Prov.provision_cases p ctx with ⟨p', e, he⟩ | ⟨p', ip, hip⟩
  · rw [he] at h
    cases h
  · exact ⟨ip, by rw [hip]; rfl⟩

/-- A successful provisioner pass appends exactly one IP per
provisioner. -/
theorem runProvisions_ips_of_ok (ps : List Prov) (ctx : Ctx)
    (h : (runProvisions ps ctx).2.2 = none) :
    (runProvisions ps ctx).2.1.ips.length = ctx.ips.length + ps.length := by
  induction ps generalizing ctx with
  | nil => simp [runProvisions]
  | cons p rest ih =>
    rcases hp : p.provision ctx with ⟨p', ctx', oe⟩
    cases oe with
    | some e =>
      have hres : (runProvisions (p :: rest) ctx).2.2 = some e := by
        show (match p.provision ctx with
              | (p', ctx', some e) => (p' :: rest, ctx', some e)
              | (p', ctx', none) =>
                match runProvisions rest ctx' with
                | (rest', ctx'', oe) => (p' :: rest', ctx'', oe)).2.2 = some e
        rw [hp]
      rw [hres] at h
      cases h
    | none =>
      rcases hr : runProvisions rest ctx' with ⟨rest', ctx'', oe2⟩
      have hres : runProvisions (p :: rest) ctx = (p' :: rest', ctx'', oe2) := by
        show (match p.provision ctx with
              | (p', ctx', some e) => (p' :: rest, ctx', some e)
              | (p', ctx', none) =>
                match runProvisions rest ctx' with
                | (rest', ctx'', oe) => (p' :: rest', ctx'', oe)) = (p' :: rest', ctx'', oe2)
        rw [hp]
        dsimp only
        rw [hr]
      rw [hres] at h
      replace h : oe2 = none := h
      subst h
      obtain ⟨ip, hips⟩ := Prov.provision_ips_of_ok p ctx (by rw [hp])
      rw [hp] at hips
      have hlen := ih ctx' (by rw [hr])
      rw [hr] at hlen
      rw [hres]
      show ctx''.ips.length = ctx.ips.length + (p :: rest).length
      rw [hlen, hips]
      simp
      omega

/-- freeOldIPs leaves the selected IPs unchanged. -/
theorem freeOldIPs_ips (ctx : Ctx) : (freeOldIPs ctx).ips = ctx.ips := by
  unfold freeOldIPs
  cases ctx.removeIPs <;> rfl

/-- listVnetCns leaves the selected IPs unchanged. -/
theorem listVnetCns_ips (ctx : Ctx) : (listVnetCns ctx).1.ips = ctx.ips := by
  unfold listVnetCns
  dsimp only
  split
  · rfl
  · split <;> rfl

/-- The list built from a single validated _ip value has at most one
entry. -/
theorem ipListOfVal_short (v : Option Val) : (ipListOfVal v).length ≤ 1 := by
  unfold ipListOfVal
  split <;> simp

/-- On two or more selected IPs the build-and-link tail reports exactly
the assertion error. -/
theorem finishNicFn_assert_of_long (ctx : Ctx) (nic0 : Nic) (h : 2 ≤ ctx.ips.length) :
    (finishNicFn ctx nic0).2 = some assertIpsError := by
  unfold finishNicFn
  cases hc : ctx.ips with
  | nil =>
    rw [hc] at h
    simp at h
  | cons a tl =>
    cases htl : tl with
    | nil =>
      rw [hc, htl] at h
      simp at h
    | cons b r => rfl

/-! Claim C10: the one-IP assertion of the NIC-building functions. -/

/-- C10: the request paths (addParams, prepareUpdate) expose at most
one provisionable IP; the driver then builds at most one provisioner;
every NIC-building function does assert that a non-empty opts.ips has
exactly one entry (on two or more it returns exactly the assertion
error); and the assertion can never fire, because after a successful
provisioner pass over at most one provisioner starting from the reset
opts.ips, and the ips-preserving free and fabric stages, the
NIC-building stage sees at most one selected IP. -/
theorem c10_assert_never_fires (ctx ctx1 ctx2 ctx3 : Ctx) (ps ps' : List Prov)
    (nf : NicFnKind)
    (hfresh : ctx.provisionableIPs = none)
    (hps : ps.length ≤ 1)
    (hprov : runProvisions ps (resetCtx ctx1) = (ps', ctx2, none))
    (hvnet : listVnetCns (freeOldIPs ctx2) = (ctx3, none)) :
    ((addParams ctx).provisionableIPs.getD []).length ≤ 1 ∧
    ((prepareUpdate ctx).1.provisionableIPs.getD []).length ≤ 1 ∧
    (∀ c : Ctx, (c.provisionableIPs.getD []).length ≤ 1 →
      (mkProvisioners c).length ≤ 1) ∧
    (∀ c : Ctx, c.nic = none → c.err = none → c.macTries = none →
      c.existingNic.isSome = true → 2 ≤ c.ips.length →
      (runNicFn nf c).2 = some assertIpsError) ∧
    (runNicFn nf ctx3).2 ≠ some assertIpsError := by
  refine ⟨?_, ?_, ?_, ?_, ?_⟩
  · unfold addParams
    dsimp only
    split
    · simpa using ipListOfVal_short _
    · simp [hfresh]
  · unfold prepareUpdate
    cases hex : ctx.existingNic with
    | none => simp [hfresh]
    | some oldNIC =>
      dsimp only
      split
      · simp [hfresh]
      · split <;> simpa using ipListOfVal_short _
  · intro c hc
    unfold mkProvisioners
    split
    · simpa using hc
    · split
      · simp
      · split <;> simp
  · intro c hnic herr hmt hex2 h2
    obtain ⟨a, tl2, hcc⟩ : ∃ a tl2, c.ips = a :: tl2 := by
      cases hx : c.ips with
      | nil =>
        rw [hx] at h2
        simp at h2
      | cons a tl => exact ⟨a, tl, rfl⟩
    obtain ⟨b, r, htl⟩ : ∃ b r, tl2 = b :: r := by
      cases hx : tl2 with
      | nil =>
        rw [hcc, hx] at h2
        simp at h2
      | cons b r => exact ⟨b, r, rfl⟩
    have hlong : 2 ≤ c.ips.length := h2
    cases nf with
    | macSupplied =>
      unfold runNicFn macSupplied
      dsimp only
      rw [hnic]
      rw [hcc, htl]
      rfl
    | randomMAC =>
      have hinit : macTriesInit c = { c with macTries := some 0 } := by
        unfold macTriesInit
        rw [hmt]
        simp
      unfold runNicFn randomMAC randomMACBody
      dsimp only
      rw [hinit]
      dsimp only
      rw [herr]
      simp only [nicEtagFail, Bool.not_false, Bool.and_true]
      cases htr : c.validated.truthy "mac" with
      | true =>
        rw [if_pos rfl]
        exact finishNicFn_assert_of_long _ _ hlong
      | false =>
        rw [if_neg (by simp)]
        rw [if_neg (by decide)]
        refine finishNicFn_assert_of_long _ _ ?_
        rw [wrapMac_ips, pickMac_ips, maxMacInit_ips]
        exact hlong
    | addUpdatedNic =>
      obtain ⟨old, hold⟩ := Option.isSome_iff_exists.mp hex2
      unfold runNicFn addUpdatedNic
      dsimp only
      rw [hold]
      exact finishNicFn_assert_of_long _ _ hlong
  · have hips2 : ctx2.ips.length = ps.length := by
      have hr := runProvisions_ips_of_ok ps (resetCtx ctx1) (by rw [hprov])
      rw [hprov] at hr
      simpa [resetCtx] using hr
    have hips3 : ctx3.ips = ctx2.ips := by
      have hv := listVnetCns_ips (freeOldIPs ctx2)
      rw [hvnet] at hv
      rw [hv, freeOldIPs_ips]
    refine runNicFn_no_assert nf ctx3 ?_
    rw [hips3, hips2]
    exact hps

/-! Helper lemmas about batch provenance, for the frame claims. -/

theorem batchIP_removeIPs (ip : IPObj) (ctx : Ctx) :
    (batchIP ip ctx).removeIPs = ctx.removeIPs := rfl

theorem batchIP_ipFree_mem (ip : IPObj) (ctx : Ctx) (ip0 : IPObj)
    (h : BatchItem.ipFree ip0 ∈ (batchIP ip ctx).batch) :
    BatchItem.ipFree ip0 ∈ ctx.batch := by
  unfold batchIP at h
  dsimp only at h
  rcases List.mem_append.mp h with h | h
  · exact h
  · simp at h

/-- A provisioner pass preserves opts._removeIPs and adds no free-batch
item. -/
theorem runProvisions_frame (ps : List Prov) (ctx : Ctx) :
    ((runProvisions ps ctx).2.1.removeIPs = ctx.removeIPs) ∧
    (∀ ip0, BatchItem.ipFree ip0 ∈ (runProvisions ps ctx).2.1.batch →
      BatchItem.ipFree ip0 ∈ ctx.batch) := by
  induction ps generalizing ctx with
  | nil => exact ⟨rfl, fun _ h => h⟩
  | cons p rest ih =>
    rcases hp : p.provision ctx with ⟨p', ctx', oe⟩
    have hctx' : ctx' = ctx ∨ ∃ ip, ctx' = batchIP ip ctx := by
      rcases Prov.provision_cases p ctx with ⟨p'', e, he⟩ | ⟨p'', ip, hipp⟩
      · rw [hp] at he
        simp only [Prod.mk.injEq] at he
        exact .inl he.2.1
      · rw [hp] at hipp
        simp only [Prod.mk.injEq] at hipp
        exact .inr ⟨ip, hipp.2.1⟩
    have hstep : ctx'.removeIPs = ctx.removeIPs ∧
        (∀ ip0, BatchItem.ipFree ip0 ∈ ctx'.batch → BatchItem.ipFree ip0 ∈ ctx.batch) := by
      rcases hctx' with h1 | ⟨ip, h1⟩ <;> subst h1
      · exact ⟨rfl, fun _ h => h⟩
      · exact ⟨batchIP_removeIPs ip ctx, fun ip0 h => batchIP_ipFree_mem ip ctx ip0 h⟩
    cases oe with
    | some e =>
      have hres : runProvisions (p :: rest) ctx = (p' :: rest, ctx', some e) := by
        show (match p.provision ctx with
              | (p', ctx', some e) => (p' :: rest, ctx', some e)
              | (p', ctx', none) =>
                match runProvisions rest ctx' with
                | (rest', ctx'', oe) => (p' :: rest', ctx'', oe)) = _
        rw [hp]
      rw [hres]
      exact hstep
    | none =>
      rcases hr : runProvisions rest ctx' with ⟨rest', ctx'', oe2⟩
      have hres : runProvisions (p :: rest) ctx = (p' :: rest', ctx'', oe2) := by
        show (match p.provision ctx with
              | (p', ctx', some e) => (p' :: rest, ctx', some e)
              | (p', ctx', none) =>
                match runProvisions rest ctx' with
                | (rest', ctx'', oe) => (p' :: rest', ctx'', oe)) = _
        rw [hp]
        dsimp only
        rw [hr]
      rw [hres]
      have hih := ih ctx'
      rw [hr] at hih
      exact ⟨hih.1.trans hstep.1, fun ip0 h => hstep.2 ip0 (hih.2 ip0 h)⟩

theorem freeOldIPs_batch (ctx : Ctx) :
    (freeOldIPs ctx).batch = ctx.batch ++ (ctx.removeIPs.getD []).map .ipFree := by
  unfold freeOldIPs
  cases ctx.removeIPs <;> simp

theorem listVnetCns_batch (ctx : Ctx) : (listVnetCns ctx).1.batch = ctx.batch := by
  unfold listVnetCns
  dsimp only
  split
  · rfl
  · split <;> rfl

theorem finishNicFn_batch (ctx : Ctx) (nic0 : Nic) :
    (finishNicFn ctx nic0).1.batch = ctx.batch := by
  unfold finishNicFn
  split <;> rfl

theorem macTriesInit_batch (ctx : Ctx) : (macTriesInit ctx).batch = ctx.batch := by
  unfold macTriesInit
  split <;> rfl

theorem maxMacInit_batch (ctx : Ctx) : (maxMacInit ctx).batch = ctx.batch := by
  unfold maxMacInit
  split <;> rfl

theorem pickMac_batch (ctx : Ctx) : (pickMac ctx).batch = ctx.batch := by
  unfold pickMac
  split <;> rfl

theorem wrapMac_batch (ctx : Ctx) : (wrapMac ctx).batch = ctx.batch := by
  unfold wrapMac
  split <;> rfl

theorem macSupplied_batch (ctx : Ctx) : (macSupplied ctx).1.batch = ctx.batch := by
  unfold macSupplied
  split
  · rfl
  · dsimp only
    split <;> rfl

theorem randomMAC_batch (ctx0 : Ctx) : (randomMAC ctx0).1.batch = ctx0.batch := by
  unfold randomMAC randomMACBody
  dsimp only
  split
  · rw [finishNicFn_batch, macTriesInit_batch]
  · split
    · exact macTriesInit_batch ctx0
    · rw [finishNicFn_batch, wrapMac_batch, pickMac_batch, maxMacInit_batch]
      exact macTriesInit_batch ctx0

theorem addUpdatedNic_batch (ctx : Ctx) : (addUpdatedNic ctx).1.batch = ctx.batch := by
  unfold addUpdatedNic
  split
  · rfl
  · rw [finishNicFn_batch]

theorem runNicFn_batch (nf : NicFnKind) (ctx : Ctx) :
    (runNicFn nf ctx).1.batch = ctx.batch := by
  cases nf with
  | macSupplied => exact macSupplied_batch ctx
  | randomMAC => exact randomMAC_batch ctx
  | addUpdatedNic => exact addUpdatedNic_batch ctx

theorem commitBatch_batch (ctx : Ctx) : (commitBatch ctx).1.batch = ctx.batch := by
  unfold commitBatch
  split <;> rfl

theorem nicBatch_ipFree_mem (ctx : Ctx) (ip0 : IPObj)
    (h : BatchItem.ipFree ip0 ∈ (nicBatch ctx).batch) :
    BatchItem.ipFree ip0 ∈ ctx.batch := by
  unfold nicBatch addNicToBatch at h
  dsimp only at h
  rcases List.mem_append.mp h with h | h
  · exact h
  · exfalso
    cases hn : ctx.nic with
    | none =>
      rw [hn] at h
      simp at h
    | some n =>
      rw [hn] at h
      simp [Nic.batchItems] at h

/-- Every free-batch item in the batch of a full pipeline pass is
either inherited from the incoming batch or names an IP recorded in
opts._removeIPs. -/
theorem runPipeline_ipFree_mem (ps : List Prov) (nf : NicFnKind) (ctx : Ctx) (ip0 : IPObj)
    (h : BatchItem.ipFree ip0 ∈ (runPipeline ps nf ctx).2.1.batch) :
    BatchItem.ipFree ip0 ∈ ctx.batch ∨ ip0 ∈ ctx.removeIPs.getD [] := by
  rcases hp : runProvisions ps ctx with ⟨ps', ctx1, oe1⟩
  have hrm1 : ctx1.removeIPs = ctx.removeIPs := by
    have hfr := (runProvisions_frame ps ctx).1
    rw [hp] at hfr
    exact hfr
  have hb1 : ∀ i, BatchItem.ipFree i ∈ ctx1.batch → BatchItem.ipFree i ∈ ctx.batch := by
    intro i hi
    have hfr := (runProvisions_frame ps ctx).2 i
    rw [hp] at hfr
    exact hfr hi
  cases oe1 with
  | some e =>
    have hre : runPipeline ps nf ctx = (ps', ctx1, some e) := by
      unfold runPipeline
      rw [hp]
    rw [hre] at h
    exact .inl (hb1 ip0 h)
  | none =>
    have hb3 : ∀ ctx3 : Ctx, ctx3.batch = (freeOldIPs ctx1).batch →
        BatchItem.ipFree ip0 ∈ ctx3.batch →
        BatchItem.ipFree ip0 ∈ ctx.batch ∨ ip0 ∈ ctx.removeIPs.getD [] := by
      intro ctx3 hbl hi
      rw [hbl, freeOldIPs_batch] at hi
      rcases List.mem_append.mp hi with hi | hi
      · exact .inl (hb1 ip0 hi)
      · right
        obtain ⟨x, hx, hfx⟩ := List.mem_map.mp hi
        injection hfx with hfx'
        subst hfx'
        rw [← hrm1]
        exact hx
    rcases hl : listVnetCns (freeOldIPs ctx1) with ⟨ctx3, oe3⟩
    have hbl3 : ctx3.batch = (freeOldIPs ctx1).batch := by
      have hv := listVnetCns_batch (freeOldIPs ctx1)
      rw [hl] at hv
      exact hv
    cases oe3 with
    | some e3 =>
      have hre : runPipeline ps nf ctx = (ps', ctx3, some e3) := by
        unfold runPipeline
        rw [hp]
        dsimp only
        rw [hl]
      rw [hre] at h
      exact hb3 ctx3 hbl3 h
    | none =>
      rcases hnf : runNicFn nf ctx3 with ⟨ctx4, oe4⟩
      have hb4 : ctx4.batch = ctx3.batch := by
        have hv := runNicFn_batch nf ctx3
        rw [hnf] at hv
        exact hv
      cases oe4 with
      | some e4 =>
        have hre : runPipeline ps nf ctx = (ps', ctx4, some e4) := by
          unfold runPipeline
          rw [hp]
          dsimp only
          rw [hl]
          dsimp only
          rw [hnf]
        rw [hre] at h
        rw [hb4] at h
        exact hb3 ctx3 hbl3 h
      | none =>
        rcases hcb : commitBatch (nicBatch ctx4) with ⟨ctx6, oe6⟩
        have hre : runPipeline ps nf ctx = (ps', ctx6, oe6) := by
          unfold runPipeline
          rw [hp]
          dsimp only
          rw [hl]
          dsimp only
          rw [hnf]
          dsimp only
          rw [hcb]
        rw [hre] at h
        have hb6 : ctx6.batch = (nicBatch ctx4).batch := by
          have hv := commitBatch_batch (nicBatch ctx4)
          rw [hcb] at hv
          exact hv
        rw [hb6] at h
        have h' := nicBatch_ipFree_mem ctx4 ip0 h
        rw [hb4] at h'
        exact hb3 ctx3 hbl3 h'

/-! Claim C7: updates free only owned IPs. -/

/-- The _removeIPs computed by prepareUpdate for a NIC with one old IP
and one requested new IP. -/
theorem prepareUpdate_removeIPs (ctx : Ctx) (oldNIC : Nic) (oldIP newIP : IPObj)
    (hex : ctx.existingNic = some oldNIC)
    (hip : oldNIC.ip = some oldIP)
    (hnew : ctx.validated.get "_ip" = some (.ipobj newIP)) :
    (prepareUpdate ctx).1.removeIPs =
      some ([oldIP].filter (fun o =>
        !(([newIP].map IPObj.v6address).contains o.v6address) &&
          oldNIC.belongsTo == o.belongs_to_uuid)) := by
  unfold prepareUpdate
  rw [hex]
  dsimp only
  rw [hnew]
  dsimp only [ipListOfVal]
  rw [hip]
  split
  · rename_i hcond
    simp at hcond
  · split <;> rfl

/-- C7: for an update that changes the IP, the old IP enters _removeIPs
only when its belongs_to_uuid equals the NIC belongs_to_uuid; when the
owners differ, the old IP is not recorded and no free-batch item for it
appears anywhere in the committed batch of a pipeline pass; when the
owners agree, the old IP is recorded and freeOldIPs emits its
free-batch item. -/
theorem c7_update_frees_only_own (ctx : Ctx) (oldNIC : Nic) (oldIP newIP : IPObj)
    (hex : ctx.existingNic = some oldNIC)
    (hip : oldNIC.ip = some oldIP)
    (hnew : ctx.validated.get "_ip" = some (.ipobj newIP))
    (hchange : newIP.v6address ≠ oldIP.v6address) :
    (∀ ip', ip' ∈ (prepareUpdate ctx).1.removeIPs.getD [] →
      (oldNIC.belongsTo == ip'.belongs_to_uuid) = true) ∧
    ((oldNIC.belongsTo == oldIP.belongs_to_uuid) = false →
      oldIP ∉ (prepareUpdate ctx).1.removeIPs.getD [] ∧
      ∀ ps nf, BatchItem.ipFree oldIP ∉
        (runPipeline ps nf (resetCtx (prepareUpdate ctx).1)).2.1.batch) ∧
    ((oldNIC.belongsTo == oldIP.belongs_to_uuid) = true →
      oldIP ∈ (prepareUpdate ctx).1.removeIPs.getD [] ∧
      BatchItem.ipFree oldIP ∈ (freeOldIPs (resetCtx (prepareUpdate ctx).1)).batch) := by
  have hrem := prepareUpdate_removeIPs ctx oldNIC oldIP newIP hex hip hnew
  have hne : oldIP.v6address ≠ newIP.v6address := fun hh => hchange hh.symm
  have hconta : (([newIP].map IPObj.v6address).contains oldIP.v6address) = false := by
    simp [hne]
  refine ⟨?_, ?_, ?_⟩
  · intro ip' hmem
    rw [hrem] at hmem
    replace hmem : ip' ∈ [oldIP].filter (fun o =>
        !(([newIP].map IPObj.v6address).contains o.v6address) &&
          oldNIC.belongsTo == o.belongs_to_uuid) := hmem
    rcases List.mem_filter.mp hmem with ⟨_, hpred⟩
    have hpred' : (!(([newIP].map IPObj.v6address).contains ip'.v6address)) = true ∧
        (oldNIC.belongsTo == ip'.belongs_to_uuid) = true := by
      simpa using hpred
    exact hpred'.2
  · intro hown
    have hnotmem : oldIP ∉ (prepareUpdate ctx).1.removeIPs.getD [] := by
      rw [hrem]
      intro hmem
      replace hmem : oldIP ∈ [oldIP].filter (fun o =>
          !(([newIP].map IPObj.v6address).contains o.v6address) &&
            oldNIC.belongsTo == o.belongs_to_uuid) := hmem
      rcases List.mem_filter.mp hmem with ⟨_, hpred⟩
      rw [hown] at hpred
      simp at hpred
    refine ⟨hnotmem, ?_⟩
    intro ps nf hmemP
    rcases runPipeline_ipFree_mem ps nf (resetCtx (prepareUpdate ctx).1) oldIP hmemP with
      hmem | hmem
    · exact absurd hmem (by simp [resetCtx])
    · exact hnotmem hmem
  · intro hown
    have hmem : oldIP ∈ (prepareUpdate ctx).1.removeIPs.getD [] := by
      rw [hrem]
      refine List.mem_filter.mpr ⟨by simp, ?_⟩
      rw [hconta, hown]
      rfl
    refine ⟨hmem, ?_⟩
    rw [freeOldIPs_batch]
    refine List.mem_append.mpr (.inr ?_)
    exact List.mem_map.mpr ⟨oldIP, hmem, rfl⟩

/-- Witness for C7: with differing owners the old IP is not recorded in
_removeIPs and no free-batch item for it reaches the batch. -/
theorem c7_witness :
    oldIP7 ∉ (prepareUpdate ctxC7).1.removeIPs.getD [] ∧
    BatchItem.ipFree oldIP7 ∉
      (runPipeline [] .addUpdatedNic (resetCtx (prepareUpdate ctxC7).1)).2.1.batch := by
  have h := (c7_update_frees_only_own ctxC7 oldNIC7 oldIP7 newIP7 rfl rfl rfl
    (by decide)).2.1 (by decide)
  exact ⟨h.1, h.2 [] .addUpdatedNic⟩

/-! Claim C4: the MAC selection discipline of randomMAC. -/

/-- Reading the mac key just written as a number returns it. -/
theorem Params.natD_set_nat (p : Params) (k : String) (n : Nat) :
    (p.set k (.nat n)).natD k = n := by
  unfold Params.natD
  rw [Params.get_set_self]

/-- Random draws stay at or below the OUI maximum. -/
theorem randomNum_le_max (oui r : Nat) : randomNum oui r ≤ maxOUInum oui := by
  unfold randomNum maxOUInum
  have : r % 16777216 < 16777216 := Nat.mod_lt _ (by norm_num)
  omega

/-- Random draws stay at or above the OUI minimum. -/
theorem min_le_randomNum (oui r : Nat) : minOUInum oui ≤ randomNum oui r := by
  unfold randomNum minOUInum
  omega

/-- The macTries initialization normalizes macTries to its defaulted
value and changes nothing else. -/
theorem macTriesInit_eq (ctx : Ctx) :
    macTriesInit ctx = { ctx with macTries := some (ctx.macTries.getD 0) } := by
  unfold macTriesInit
  cases h : ctx.macTries with
  | none => rfl
  | some t =>
    show ctx = { ctx with macTries := some ((some t : Option Nat).getD 0) }
    rw [show (some t : Option Nat).getD 0 = t from rfl, ← h]

/-- The build-and-link tail keeps the request bookkeeping fields. -/
theorem finishNicFn_fields (ctx : Ctx) (nic0 : Nic) :
    (finishNicFn ctx nic0).1.validated = ctx.validated ∧
    (finishNicFn ctx nic0).1.startMac = ctx.startMac ∧
    (finishNicFn ctx nic0).1.macTries = ctx.macTries ∧
    (finishNicFn ctx nic0).1.randoms = ctx.randoms := by
  unfold finishNicFn
  split <;> exact ⟨rfl, rfl, rfl, rfl⟩

/-- The build-and-link tail succeeds on at most one selected IP. -/
theorem finishNicFn_snd_of_short (ctx : Ctx) (nic0 : Nic) (h : ctx.ips.length ≤ 1) :
    (finishNicFn ctx nic0).2 = none := by
  obtain ⟨n, hn⟩ := linkNicIPs_ok_of_short nic0 ctx.ips h
  unfold finishNicFn
  rw [hn]

/-- randomMACBody in the reuse branch. -/
theorem randomMACBody_reuse (ctx : Ctx) (htr : ctx.validated.truthy "mac" = true)
    (hne : nicEtagFail ctx.err = false) :
    randomMACBody ctx = finishNicFn ctx (buildNic ctx.validated) := by
  unfold randomMACBody
  rw [htr, hne]
  rfl

/-- randomMACBody in the exhausted branch. -/
theorem randomMACBody_exhaust (ctx : Ctx)
    (hcond : (ctx.validated.truthy "mac" && !nicEtagFail ctx.err) = false)
    (ht : MAC_RETRIES < ctx.macTries.getD 0) :
    randomMACBody ctx = (ctx, some noFreeMacErr) := by
  unfold randomMACBody
  rw [hcond]
  rw [if_neg (by simp), if_pos ht]

/-- randomMACBody in the selection branch. -/
theorem randomMACBody_pick (ctx : Ctx)
    (hcond : (ctx.validated.truthy "mac" && !nicEtagFail ctx.err) = false)
    (ht : ctx.macTries.getD 0 ≤ MAC_RETRIES) :
    randomMACBody ctx =
      finishNicFn
        (wrapMac (pickMac (maxMacInit
          { ctx with macTries := some (ctx.macTries.getD 0 + 1) })))
        (buildNic (wrapMac (pickMac (maxMacInit
          { ctx with macTries := some (ctx.macTries.getD 0 + 1) }))).validated) := by
  unfold randomMACBody
  rw [hcond]
  rw [if_neg (by simp), if_neg (by omega)]

/-- maxMac caching when unset. -/
theorem maxMacInit_of_none (ctx : Ctx) (h : ctx.maxMac = none) :
    maxMacInit ctx = { ctx with maxMac := some (maxOUInum ctx.macOUI) } := by
  unfold maxMacInit
  rw [h]
  rfl

/-- maxMac caching is a no-op once the OUI maximum is cached. -/
theorem maxMacInit_of_cached (ctx : Ctx)
    (h : ctx.maxMac = some (maxOUInum ctx.macOUI)) :
    maxMacInit ctx = ctx := by
  unfold maxMacInit
  rw [h]
  split
  · rename_i hc
    simp only [Option.getD_some, maxOUInum] at hc
    omega
  · rfl

/-- MAC selection without a previous MAC: a fresh random draw, recorded
as startMac. -/
theorem pickMac_of_fresh (ctx : Ctx) (h : ctx.validated.truthy "mac" = false) :
    pickMac ctx =
      { ctx with randoms := ctx.randoms.tail,
                 validated := ctx.validated.set "mac"
                   (.nat (randomNum ctx.macOUI (ctx.randoms.headD 0))),
                 startMac := some (randomNum ctx.macOUI (ctx.randoms.headD 0)) } := by
  unfold pickMac drawRandom
  rw [h]
  rfl

/-- MAC selection with a previous MAC: increment. -/
theorem pickMac_of_mac (ctx : Ctx) (h : ctx.validated.truthy "mac" = true) :
    pickMac ctx =
      { ctx with validated :=
          ctx.validated.set "mac" (.nat (ctx.validated.natD "mac" + 1)) } := by
  unfold pickMac
  rw [h]
  rfl

/-- No wrap below the cached maximum. -/
theorem wrapMac_of_le (ctx : Ctx) (h : ctx.validated.natD "mac" ≤ ctx.maxMac.getD 0) :
    wrapMac ctx = ctx := by
  unfold wrapMac
  rw [if_neg (by omega)]

/-- Wrap past the cached maximum: a fresh random draw. -/
theorem wrapMac_of_gt (ctx : Ctx) (h : ctx.maxMac.getD 0 < ctx.validated.natD "mac") :
    wrapMac ctx =
      { ctx with randoms := ctx.randoms.tail,
                 validated := ctx.validated.set "mac"
                   (.nat (randomNum ctx.macOUI (ctx.randoms.headD 0))) } := by
  unfold wrapMac drawRandom
  rw [if_pos (by omega)]

/-- The first-attempt scenario of the selection branch. -/
theorem randomMAC_first_draw (ctx' : Ctx)
    (htr : ctx'.validated.truthy "mac" = false)
    (ht : ctx'.macTries.getD 0 ≤ MAC_RETRIES)
    (hmax : ctx'.maxMac = none) :
    randomMACBody ctx' =
      finishNicFn
        { ctx' with macTries := some (ctx'.macTries.getD 0 + 1),
                    maxMac := some (maxOUInum ctx'.macOUI),
                    randoms := ctx'.randoms.tail,
                    validated := ctx'.validated.set "mac"
                      (.nat (randomNum ctx'.macOUI (ctx'.randoms.headD 0))),
                    startMac := some (randomNum ctx'.macOUI (ctx'.randoms.headD 0)) }
        (buildNic (ctx'.validated.set "mac"
          (.nat (randomNum ctx'.macOUI (ctx'.randoms.headD 0))))) := by
  rw [randomMACBody_pick ctx' (by rw [htr]; rfl) ht]
  rw [maxMacInit_of_none { ctx' with macTries := some (ctx'.macTries.getD 0 + 1) } hmax]
  dsimp only
  rw [pickMac_of_fresh
    { ctx' with macTries := some (ctx'.macTries.getD 0 + 1),
                maxMac := some (maxOUInum ctx'.macOUI) } htr]
  dsimp only
  rw [wrapMac_of_le
    { ctx' with macTries := some (ctx'.macTries.getD 0 + 1),
                maxMac := some (maxOUInum ctx'.macOUI),
                randoms := ctx'.randoms.tail,
                validated := ctx'.validated.set "mac"
                  (.nat (randomNum ctx'.macOUI (ctx'.randoms.headD 0))),
                startMac := some (randomNum ctx'.macOUI (ctx'.randoms.headD 0)) }
    (by
      show (ctx'.validated.set "mac"
        (.nat (randomNum ctx'.macOUI (ctx'.randoms.headD 0)))).natD "mac" ≤
          (some (maxOUInum ctx'.macOUI)).getD 0
      rw [Params.natD_set_nat]
      exact randomNum_le_max ctx'.macOUI (ctx'.randoms.headD 0))]

/-- The increment scenario of the selection branch. -/
theorem randomMAC_increment (ctx' : Ctx)
    (htr : ctx'.validated.truthy "mac" = true)
    (hfail : nicEtagFail ctx'.err = true)
    (ht : ctx'.macTries.getD 0 ≤ MAC_RETRIES)
    (hmax : ctx'.maxMac = some (maxOUInum ctx'.macOUI))
    (hle : ctx'.validated.natD "mac" + 1 ≤ maxOUInum ctx'.macOUI) :
    randomMACBody ctx' =
      finishNicFn
        { ctx' with macTries := some (ctx'.macTries.getD 0 + 1),
                    validated := ctx'.validated.set "mac"
                      (.nat (ctx'.validated.natD "mac" + 1)) }
        (buildNic (ctx'.validated.set "mac"
          (.nat (ctx'.validated.natD "mac" + 1)))) := by
  rw [randomMACBody_pick ctx' (by rw [htr, hfail]; rfl) ht]
  rw [maxMacInit_of_cached { ctx' with macTries := some (ctx'.macTries.getD 0 + 1) } hmax]
  rw [pickMac_of_mac { ctx' with macTries := some (ctx'.macTries.getD 0 + 1) } htr]
  dsimp only
  rw [wrapMac_of_le
    { ctx' with macTries := some (ctx'.macTries.getD 0 + 1),
                validated := ctx'.validated.set "mac"
                  (.nat (ctx'.validated.natD "mac" + 1)) }
    (by
      show (ctx'.validated.set "mac"
        (.nat (ctx'.validated.natD "mac" + 1))).natD "mac" ≤ ctx'.maxMac.getD 0
      rw [Params.natD_set_nat, hmax]
      exact hle)]

/-- The wrap scenario of the selection branch. -/
theorem randomMAC_wrap (ctx' : Ctx)
    (htr : ctx'.validated.truthy "mac" = true)
    (hfail : nicEtagFail ctx'.err = true)
    (ht : ctx'.macTries.getD 0 ≤ MAC_RETRIES)
    (hmax : ctx'.maxMac = some (maxOUInum ctx'.macOUI))
    (hgt : maxOUInum ctx'.macOUI < ctx'.validated.natD "mac" + 1) :
    randomMACBody ctx' =
      finishNicFn
        { ctx' with macTries := some (ctx'.macTries.getD 0 + 1),
                    randoms := ctx'.randoms.tail,
                    validated := (ctx'.validated.set "mac"
                        (.nat (ctx'.validated.natD "mac" + 1))).set "mac"
                      (.nat (randomNum ctx'.macOUI (ctx'.randoms.headD 0))) }
        (buildNic ((ctx'.validated.set "mac"
            (.nat (ctx'.validated.natD "mac" + 1))).set "mac"
          (.nat (randomNum ctx'.macOUI (ctx'.randoms.headD 0))))) := by
  rw [randomMACBody_pick ctx' (by rw [htr, hfail]; rfl) ht]
  rw [maxMacInit_of_cached { ctx' with macTries := some (ctx'.macTries.getD 0 + 1) } hmax]
  rw [pickMac_of_mac { ctx' with macTries := some (ctx'.macTries.getD 0 + 1) } htr]
  dsimp only
  rw [wrapMac_of_gt
    { ctx' with macTries := some (ctx'.macTries.getD 0 + 1),
                validated := ctx'.validated.set "mac"
                  (.nat (ctx'.validated.natD "mac" + 1)) }
    (by
      show ctx'.maxMac.getD 0 < (ctx'.validated.set "mac"
        (.nat (ctx'.validated.natD "mac" + 1))).natD "mac"
      rw [Params.natD_set_nat, hmax]
      exact hgt)]

/-- C4: the first randomMAC attempt is the fresh random draw mapped
into the configured OUI (recorded as startMac and counted); a
subsequent attempt under a NIC-bucket conflict increments the previous
MAC, re-randomizing within the OUI when the increment passes the OUI
maximum; once the attempt counter passes MAC_RETRIES the function fails
with the stopping no-free-MAC error; and without a NIC-bucket conflict
it reuses the MAC without a new attempt. -/
theorem c4_randomMAC (ctx : Ctx) (hips : ctx.ips.length ≤ 1) :
    (ctx.validated.truthy "mac" = false → ctx.macTries.getD 0 ≤ MAC_RETRIES →
      ctx.maxMac = none →
      (randomMAC ctx).2 = none ∧
      (randomMAC ctx).1.validated.natD "mac" =
        randomNum ctx.macOUI (ctx.randoms.headD 0) ∧
      minOUInum ctx.macOUI ≤ (randomMAC ctx).1.validated.natD "mac" ∧
      (randomMAC ctx).1.validated.natD "mac" ≤ maxOUInum ctx.macOUI ∧
      (randomMAC ctx).1.startMac =
        some (randomNum ctx.macOUI (ctx.randoms.headD 0)) ∧
      (randomMAC ctx).1.macTries = some (ctx.macTries.getD 0 + 1)) ∧
    (ctx.validated.truthy "mac" = true → nicEtagFail ctx.err = true →
      ctx.macTries.getD 0 ≤ MAC_RETRIES →
      ctx.maxMac = some (maxOUInum ctx.macOUI) →
      ctx.validated.natD "mac" + 1 ≤ maxOUInum ctx.macOUI →
      (randomMAC ctx).2 = none ∧
      (randomMAC ctx).1.validated.natD "mac" = ctx.validated.natD "mac" + 1 ∧
      (randomMAC ctx).1.macTries = some (ctx.macTries.getD 0 + 1)) ∧
    (ctx.validated.truthy "mac" = true → nicEtagFail ctx.err = true →
      ctx.macTries.getD 0 ≤ MAC_RETRIES →
      ctx.maxMac = some (maxOUInum ctx.macOUI) →
      maxOUInum ctx.macOUI < ctx.validated.natD "mac" + 1 →
      (randomMAC ctx).2 = none ∧
      (randomMAC ctx).1.validated.natD "mac" =
        randomNum ctx.macOUI (ctx.randoms.headD 0) ∧
      minOUInum ctx.macOUI ≤ (randomMAC ctx).1.validated.natD "mac" ∧
      (randomMAC ctx).1.validated.natD "mac" ≤ maxOUInum ctx.macOUI) ∧
    ((ctx.validated.truthy "mac" = false ∨ nicEtagFail ctx.err = true) →
      MAC_RETRIES < ctx.macTries.getD 0 →
      (randomMAC ctx).2 = some noFreeMacErr ∧ noFreeMacErr.stop = true) ∧
    (ctx.validated.truthy "mac" = true → nicEtagFail ctx.err = false →
      (randomMAC ctx).2 = none ∧
      (randomMAC ctx).1.validated = ctx.validated ∧
      (randomMAC ctx).1.randoms = ctx.randoms ∧
      (randomMAC ctx).1.macTries = some (ctx.macTries.getD 0)) := by
  have hun : randomMAC ctx =
      randomMACBody { ctx with macTries := some (ctx.macTries.getD 0) } := by
    unfold randomMAC
    rw [macTriesInit_eq]
  refine ⟨?_, ?_, ?_, ?_, ?_⟩
  · intro htr ht hmax
    rw [hun,
      randomMAC_first_draw { ctx with macTries := some (ctx.macTries.getD 0) } htr ht hmax]
    obtain ⟨hv, hs, _, hr⟩ := finishNicFn_fields _ _
    refine ⟨finishNicFn_snd_of_short _ _ hips, ?_, ?_, ?_, ?_, ?_⟩
    · rw [hv]
      exact Params.natD_set_nat _ _ _
    · rw [hv, Params.natD_set_nat]
      exact min_le_randomNum _ _
    · rw [hv, Params.natD_set_nat]
      exact randomNum_le_max _ _
    · exact hs.trans rfl
    · exact (finishNicFn_fields _ _).2.2.1.trans rfl
  · intro htr hfail ht hmax hle
    rw [hun,
      randomMAC_increment { ctx with macTries := some (ctx.macTries.getD 0) } htr hfail ht
        hmax hle]
    obtain ⟨hv, _, hm, _⟩ := finishNicFn_fields _ _
    refine ⟨finishNicFn_snd_of_short _ _ hips, ?_, ?_⟩
    · rw [hv]
      exact Params.natD_set_nat _ _ _
    · exact hm.trans rfl
  · intro htr hfail ht hmax hgt
    rw [hun,
      randomMAC_wrap { ctx with macTries := some (ctx.macTries.getD 0) } htr hfail ht
        hmax hgt]
    obtain ⟨hv, _, _, _⟩ := finishNicFn_fields _ _
    refine ⟨finishNicFn_snd_of_short _ _ hips, ?_, ?_, ?_⟩
    · rw [hv]
      exact Params.natD_set_nat _ _ _
    · rw [hv, Params.natD_set_nat]
      exact min_le_randomNum _ _
    · rw [hv, Params.natD_set_nat]
      exact randomNum_le_max _ _
  · intro hdisj ht
    have hcond : (ctx.validated.truthy "mac" && !nicEtagFail ctx.err) = false := by
      rcases hdisj with h | h
      · rw [h]
        rfl
      · rw [h]
        simp
    rw [hun,
      randomMACBody_exhaust { ctx with macTries := some (ctx.macTries.getD 0) } hcond ht]
    exact ⟨rfl, rfl⟩
  · intro htr hne
    rw [hun,
      randomMACBody_reuse { ctx with macTries := some (ctx.macTries.getD 0) } htr hne]
    obtain ⟨hv, _, hm, hr⟩ := finishNicFn_fields _ _
    exact ⟨finishNicFn_snd_of_short _ _ hips, hv, hr, hm⟩

/-- Witness for C4 at the first attempt: the MAC is the fresh draw
inside the OUI and the attempt is counted. -/
theorem c4_witness :
    (randomMAC ctxC4).2 = none ∧
    (randomMAC ctxC4).1.validated.natD "mac" =
      randomNum ctxC4.macOUI (ctxC4.randoms.headD 0) ∧
    minOUInum ctxC4.macOUI ≤ (randomMAC ctxC4).1.validated.natD "mac" ∧
    (randomMAC ctxC4).1.validated.natD "mac" ≤ maxOUInum ctxC4.macOUI ∧
    (randomMAC ctxC4).1.startMac =
      some (randomNum ctxC4.macOUI (ctxC4.randoms.headD 0)) ∧
    (randomMAC ctxC4).1.macTries = some (ctxC4.macTries.getD 0 + 1) :=
  (c4_randomMAC ctxC4 (by decide)).1 rfl (by decide) rfl

/-! Claim C5: subnet-full handling on single networks and pools. -/

/-- C5: a subnet-full error on a single requested network keeps its
stop flag through NetworkProvision and ends the allocation loop with
that error; under a pool the same store failure reaches the driver with
the stop flag removed, so the driver records it and retries; and on the
retry the pool provisioner reacts to the recorded subnet-full error on
its selected network by switching to the next member network. -/
theorem c5_subnet_full (p : NetworkProvision) (pp : NetworkPoolProvision)
    (ctx : Ctx) (net : Network) (u : String) (nf : NicFnKind) (fuel : Nat) :
    (p.ip = none → ctx.nextIPonNetwork p.network.uuid = .error (subnetFullError u) →
      (Prov.provision (.netP p) ctx).2.2 = some (subnetFullError u) ∧
      (subnetFullError u).stop = true ∧
      nicAndIPLoop nf (fuel + 1) [.netP p] ctx = .err (subnetFullError u)) ∧
    (pp.network = some net → pp.ip = none → pp.haveNetFailure ctx.err = false →
      ctx.nextIPonNetwork net.uuid = .error (subnetFullError u) →
      (Prov.provision (.poolP pp) ctx).2.2 = some (subnetFullNoStop u) ∧
      (subnetFullNoStop u).stop = false ∧
      nicAndIPLoop nf (fuel + 1) [.poolP pp] ctx =
        nicAndIPLoop nf fuel [.poolP pp]
          { resetCtx ctx with err := some (subnetFullNoStop u) }) ∧
    (pp.network = some net → ctx.err = some (subnetFullNoStop net.uuid) →
      NetworkPoolProvision.provision pp ctx = pp.nextNetwork ctx) := by
  refine ⟨?_, ?_, ?_⟩
  · intro hip hstore
    have hgen : ∀ c : Ctx, c.nextIPonNetwork p.network.uuid = .error (subnetFullError u) →
        Prov.provision (.netP p) c = (.netP p, c, some (subnetFullError u)) := by
      intro c hs
      have hfetch : p.fetchHere c = (p, c, some (subnetFullError u)) := by
        unfold NetworkProvision.fetchHere fetchNextIP
        rw [hs]
        rfl
      unfold Prov.provision NetworkProvision.provision
      dsimp only
      rw [hip]
      dsimp only
      rw [hfetch]
    have hrp : runProvisions [Prov.netP p] (resetCtx ctx) =
        ([Prov.netP p], resetCtx ctx, some (subnetFullError u)) := by
      show (match Prov.provision (.netP p) (resetCtx ctx) with
            | (p', ctx', some e) => (p' :: [], ctx', some e)
            | (p', ctx', none) =>
              match runProvisions [] ctx' with
              | (rest', ctx'', oe) => (p' :: rest', ctx'', oe)) = _
      rw [hgen (resetCtx ctx) hstore]
    have hpipe : runPipeline [Prov.netP p] nf (resetCtx ctx) =
        ([Prov.netP p], resetCtx ctx, some (subnetFullError u)) := by
      unfold runPipeline
      rw [hrp]
    refine ⟨?_, rfl, ?_⟩
    · rw [hgen ctx hstore]
    · rw [nicAndIPLoop_succ, hpipe]
      rfl
  · intro hnet hip hfail hstore
    have hgen : ∀ c : Ctx, c.nextIPonNetwork net.uuid = .error (subnetFullError u) →
        pp.haveNetFailure c.err = false →
        Prov.provision (.poolP pp) c = (.poolP pp, c, some (subnetFullNoStop u)) := by
      intro c hs hf
      have hfetch : pp.fetchHere net c = (pp, c, some (subnetFullNoStop u)) := by
        unfold NetworkPoolProvision.fetchHere fetchNextIP
        rw [hs]
        rfl
      unfold Prov.provision NetworkPoolProvision.provision
      dsimp only
      rw [hnet]
      dsimp only
      rw [hf, if_neg (by simp)]
      rw [hip]
      dsimp only
      rw [hfetch]
    have hrp : runProvisions [Prov.poolP pp] (resetCtx ctx) =
        ([Prov.poolP pp], resetCtx ctx, some (subnetFullNoStop u)) := by
      show (match Prov.provision (.poolP pp) (resetCtx ctx) with
            | (p', ctx', some e) => (p' :: [], ctx', some e)
            | (p', ctx', none) =>
              match runProvisions [] ctx' with
              | (rest', ctx'', oe) => (p' :: rest', ctx'', oe)) = _
      rw [hgen (resetCtx ctx) hstore hfail]
    have hpipe : runPipeline [Prov.poolP pp] nf (resetCtx ctx) =
        ([Prov.poolP pp], resetCtx ctx, some (subnetFullNoStop u)) := by
      unfold runPipeline
      rw [hrp]
    refine ⟨?_, rfl, ?_⟩
    · rw [hgen ctx hstore hfail]
    · rw [nicAndIPLoop_succ, hpipe]
      rfl
  · intro hnet herr
    have hfail : pp.haveNetFailure ctx.err = true := by
      unfold NetworkPoolProvision.haveNetFailure
      rw [herr, hnet]
      simp [subnetFullNoStop, subnetFullError]
    unfold NetworkPoolProvision.provision
    rw [hnet]
    dsimp only
    rw [hfail]
    rfl

/-- Witness for C5: the single-network provisioner surfaces the
stopping subnet-full error and the loop ends with it; the pool
provisioner with that recorded error switches to the next member. -/
theorem c5_witness :
    ((Prov.provision (.netP netProv5) ctxC5).2.2 = some (subnetFullError "net1") ∧
      (subnetFullError "net1").stop = true ∧
      nicAndIPLoop .randomMAC 1 [.netP netProv5] ctxC5 = .err (subnetFullError "net1")) ∧
    NetworkPoolProvision.provision poolProv5 ctxC5c = poolProv5.nextNetwork ctxC5c :=
  ⟨(c5_subnet_full netProv5 poolProv5 ctxC5 net1 "net1" .randomMAC 0).1 rfl rfl,
   (c5_subnet_full netProv5 poolProv5 ctxC5c net1 "net1" .randomMAC 0).2.2 rfl rfl⟩

/-! Claim C6: pool member order and exhaustion. -/

/-- C6: the pool queue starts as pool.networks in order; the pool
provisioner advances (calls nextNetwork) exactly when no network is
selected or the previous error was subnet-full on the selected one, and
otherwise keeps its queue and selection; nextNetwork consumes the head
member, selecting it when the store lookup succeeds; and an exhausted
queue yields the stopping pool-full invalid-parameter error on the
provisioner field. -/
theorem c6_pool_order (pp : NetworkPoolProvision) (ctx : Ctx) (pool : NetworkPool)
    (field : String) (net : Network) (u : String) (rest : List String) :
    ((NetworkPoolProvision.make pool field).poolUUIDs = pool.networks) ∧
    (pp.network = none →
      NetworkPoolProvision.provision pp ctx = pp.nextNetwork ctx) ∧
    (pp.network = some net → pp.haveNetFailure ctx.err = true →
      NetworkPoolProvision.provision pp ctx = pp.nextNetwork ctx) ∧
    (pp.network = some net → pp.haveNetFailure ctx.err = false →
      (NetworkPoolProvision.provision pp ctx).1.poolUUIDs = pp.poolUUIDs ∧
      (NetworkPoolProvision.provision pp ctx).1.network = pp.network) ∧
    (pp.poolUUIDs = u :: rest →
      (pp.nextNetwork ctx).1.poolUUIDs = rest ∧
      (∀ netg, ctx.netGet u = .ok netg →
        (pp.nextNetwork ctx).1.network = some netg)) ∧
    (pp.poolUUIDs = [] →
      pp.nextNetwork ctx = (pp, ctx, some (poolFullError pp.field)) ∧
      (poolFullError pp.field).stop = true) := by
  refine ⟨rfl, ?_, ?_, ?_, ?_, ?_⟩
  · intro hnet
    unfold NetworkPoolProvision.provision
    rw [hnet]
  · intro hnet hfail
    unfold NetworkPoolProvision.provision
    rw [hnet]
    dsimp only
    rw [hfail]
    rfl
  · intro hnet hfail
    have hred : NetworkPoolProvision.provision pp ctx =
        (match pp.ip with
         | none => pp.fetchHere net ctx
         | some ip =>
           if haveEtagFailure (some ip) (.netObj net) ctx.err then pp.fetchHere net ctx
           else (pp, batchIP ip ctx, none)) := by
      unfold NetworkPoolProvision.provision
      rw [hnet]
      dsimp only
      rw [hfail, if_neg (by simp)]
    rw [hred]
    have hfetchKeep : (pp.fetchHere net ctx).1.poolUUIDs = pp.poolUUIDs ∧
        (pp.fetchHere net ctx).1.network = pp.network := by
      rcases NetworkPoolProvision.poolFetchHere_cases pp net ctx with ⟨e, he⟩ | ⟨ip, hx⟩
      · rw [he]
        exact ⟨rfl, rfl⟩
      · rw [hx]
        exact ⟨rfl, rfl⟩
    cases hip : pp.ip with
    | none => exact hfetchKeep
    | some ip =>
      dsimp only
      by_cases hc : haveEtagFailure (some ip) (.netObj net) ctx.err = true
      · rw [if_pos hc]
        exact hfetchKeep
      · rw [if_neg hc]
        exact ⟨rfl, rfl⟩
  · intro hu
    have hshift : ∀ r : NetworkPoolProvision × Ctx × Option NapiError,
        pp.nextNetwork ctx = r →
        r.1.poolUUIDs = rest ∧
        (∀ netg, ctx.netGet u = .ok netg → r.1.network = some netg) := by
      intro r hr
      cases hg : ctx.netGet u with
      | error e =>
        have hres : pp.nextNetwork ctx = ({ pp with poolUUIDs := rest }, ctx, some e) := by
          unfold NetworkPoolProvision.nextNetwork
          rw [hu]
          dsimp only
          rw [hg]
        rw [hres] at hr
        subst hr
        exact ⟨rfl, fun netg hok => by cases hok⟩
      | ok netg =>
        have hres : pp.nextNetwork ctx =
            ({ pp with poolUUIDs := rest, network := some netg }.fetchHere netg ctx) := by
          unfold NetworkPoolProvision.nextNetwork NetworkPoolProvision.fetchHere
          rw [hu]
          dsimp only
          rw [hg]
        rw [hres] at hr
        rcases NetworkPoolProvision.poolFetchHere_cases
            { pp with poolUUIDs := rest, network := some netg } netg ctx with ⟨e, he⟩ | ⟨ip, hx⟩
        · rw [he] at hr
          subst hr
          exact ⟨rfl, fun netg' hok => by
            cases hok
            rfl⟩
        · rw [hx] at hr
          subst hr
          exact ⟨rfl, fun netg' hok => by
            cases hok
            rfl⟩
    exact hshift (pp.nextNetwork ctx) rfl
  · intro hu
    refine ⟨?_, rfl⟩
    unfold NetworkPoolProvision.nextNetwork
    rw [hu]

/-- Witness for C6: the fresh queue is the pool order, the first
advance consumes the head and selects it, and the exhausted queue stops
with the pool-full error. -/
theorem c6_witness :
    (NetworkPoolProvision.make pool6 "network_uuid").poolUUIDs = pool6.networks ∧
    ((poolProv6.nextNetwork ctxC6).1.poolUUIDs = ["n2"] ∧
      (poolProv6.nextNetwork ctxC6).1.network = some { uuid := "n1" }) ∧
    poolProv6e.nextNetwork ctxC6 = (poolProv6e, ctxC6, some (poolFullError "network_uuid")) := by
  have h1 := (c6_pool_order poolProv6 ctxC6 pool6 "network_uuid" net1 "n1" ["n2"]).1
  have h5 := (c6_pool_order poolProv6 ctxC6 pool6 "network_uuid" net1 "n1" ["n2"]).2.2.2.2.1 rfl
  have h6 := (c6_pool_order poolProv6e ctxC6 pool6 "network_uuid" net1 "n1" ["n2"]).2.2.2.2.2 rfl
  exact ⟨h1, ⟨h5.1, h5.2 { uuid := "n1" } rfl⟩, h6.1⟩

/-! Claim C9: the delete path and IP ownership. -/

/-- C9: in the delete pipeline, the unassign batch item for the NIC IP
is appended exactly when the IP belongs_to_uuid equals the NIC
belongs_to_uuid; a mismatch leaves the batch at the NIC delete alone
(the IP record untouched) while the pipeline still reaches the commit
with the NIC deletion. -/
theorem c9_delete_unassign_iff (nic : Nic) (ip : IPObj)
    (lookup : Nat → Except NapiError (List String)) (commitRes : Option NapiError)
    (ov : Option (List String))
    (hip : nic.ip = some ip)
    (hl : delListVnetCns nic lookup = .ok ov) :
    (BatchItem.ipUnassign ip ∈ (del none (.ok nic) lookup commitRes).batch ↔
      (ip.belongs_to_uuid == nic.belongsTo) = true) ∧
    (del none (.ok nic) lookup commitRes).committed = true ∧
    (del none (.ok nic) lookup commitRes).err = commitRes ∧
    BatchItem.nicDel nic ∈ (del none (.ok nic) lookup commitRes).batch ∧
    ((ip.belongs_to_uuid == nic.belongsTo) = false →
      (del none (.ok nic) lookup commitRes).batch = [.nicDel nic]) ∧
    ((ip.belongs_to_uuid == nic.belongsTo) = true →
      (del none (.ok nic) lookup commitRes).batch = [.nicDel nic, .ipUnassign ip]) := by
  have hres : del none (.ok nic) lookup commitRes =
      ⟨commitRes, delIPs nic nic.delBatch, true⟩ := by
    unfold del
    dsimp only
    rw [hl]
  have hdel : delIPs nic nic.delBatch = delIP nic ip nic.delBatch := by
    unfold delIPs
    rw [hip]
  rw [hres, hdel]
  cases hb : ip.belongs_to_uuid == nic.belongsTo with
  | true =>
    have hbatch : delIP nic ip nic.delBatch = [.nicDel nic, .ipUnassign ip] := by
      unfold delIP
      rw [hb]
      rfl
    rw [hbatch]
    refine ⟨by simp, rfl, rfl, by simp, ?_, fun _ => rfl⟩
    intro hcontra
    cases hcontra
  | false =>
    have hbatch : delIP nic ip nic.delBatch = [.nicDel nic] := by
      unfold delIP
      rw [hb]
      rfl
    rw [hbatch]
    refine ⟨?_, rfl, rfl, by simp, fun _ => rfl, ?_⟩
    · constructor
      · intro hmem
        simp at hmem
      · intro hcontra
        cases hcontra
    · intro hcontra
      cases hcontra

/-- Witness for C9: with mismatched ownership the delete still commits,
the batch is exactly the NIC delete, and no unassign item is
emitted. -/
theorem c9_witness :
    (BatchItem.ipUnassign oldIP7 ∈ (del none (.ok nic9) (fun _ => .ok []) none).batch ↔
      (oldIP7.belongs_to_uuid == nic9.belongsTo) = true) ∧
    (del none (.ok nic9) (fun _ => .ok []) none).committed = true ∧
    (del none (.ok nic9) (fun _ => .ok []) none).err = none ∧
    BatchItem.nicDel nic9 ∈ (del none (.ok nic9) (fun _ => .ok []) none).batch ∧
    ((oldIP7.belongs_to_uuid == nic9.belongsTo) = false →
      (del none (.ok nic9) (fun _ => .ok []) none).batch = [.nicDel nic9]) ∧
    ((oldIP7.belongs_to_uuid == nic9.belongsTo) = true →
      (del none (.ok nic9) (fun _ => .ok []) none).batch =
        [.nicDel nic9, .ipUnassign oldIP7]) :=
  c9_delete_unassign_iff nic9 oldIP7 (fun _ => .ok []) none none rfl rfl

/-- Witness for C10 at a concrete fresh request: the NIC-building stage
cannot report the assertion error. -/
theorem c10_witness :
    (runNicFn .macSupplied (resetCtx ctxF)).2 ≠ some assertIpsError :=
  (c10_assert_never_fires ctxF ctxF (resetCtx ctxF) (resetCtx ctxF) [] [] .macSupplied
    rfl (by decide) rfl rfl).2.2.2.2

/-- Witness for C3: a clean run returns the built NIC, a stopping error
is returned immediately, and a non-stopping commit failure re-enters
the loop with the error recorded. -/
theorem c3_witness :
    nicAndIPLoop .macSupplied 1 [] ctxS =
      .ok (runPipeline [] .macSupplied (resetCtx ctxS)).2.1.nic ∧
    nicAndIPLoop .macSupplied 1 [] ctxStop = .err macInUseErr ∧
    nicAndIPLoop .macSupplied 2 [] ctxRetry =
      nicAndIPLoop .macSupplied 1 (runPipeline [] .macSupplied (resetCtx ctxRetry)).1
        { (runPipeline [] .macSupplied (resetCtx ctxRetry)).2.1 with
            err := some transientErr } :=
  ⟨(c3_nicAndIP_loop .macSupplied 0 [] ctxS [] []).2.2 rfl,
   ((c3_nicAndIP_loop .macSupplied 0 [] ctxStop [] []).2.1 macInUseErr rfl).1 rfl,
   ((c3_nicAndIP_loop .macSupplied 1 [] ctxRetry [] []).2.1 transientErr rfl).2 rfl⟩

end Napi
